import Mathlib

/-!
Shallow embedding of the Darkwood werewolf game engine (src/App.tsx,
src/types.ts, src/constants.tsx): entity model, ability/cooldown ledger,
night resolver, day resolver, phase transitions and win evaluator, with
theorems settling the specification claims.
-/

/-- Role of a participant (src/types.ts, enum Role). -/
inductive Role
  | VILLAGER
  | WEREWOLF
  | SEER
  | DOCTOR
deriving DecidableEq

/-- Game phase (src/types.ts, enum Phase). -/
inductive Phase
  | SETUP
  | NIGHT_INTRO
  | NIGHT_ACTION
  | DAY_INTRO
  | DAY_DISCUSSION
  | DAY_VOTING
  | GAME_OVER
deriving DecidableEq

/-- Rune kind (src/types.ts, enum RuneType). -/
inductive RuneType
  | SIGHT
  | SHIELD
deriving DecidableEq

/-- Winning team (the argument of setWinner in src/App.tsx). -/
inductive Team
  | Villagers
  | Werewolves
deriving DecidableEq

/-- A rune (src/types.ts, interface Rune). `cooldown` is the total cooldown
period; `currentCooldown` is the remaining cooldown (0 = ready). -/
structure Rune where
  id : String
  name : String
  type : RuneType
  description : String
  cooldown : Nat
  currentCooldown : Nat
deriving DecidableEq

/-- A participant (src/types.ts, interface Player). -/
structure Player where
  id : String
  name : String
  role : Role
  isAlive : Bool
  isBot : Bool
  avatar : String
  votesAgainst : Nat
  runes : List Rune
deriving DecidableEq

/-- Pending night targets (src/types.ts, GameState.targets). -/
structure Targets where
  werewolf : Option String
  doctor : Option String
  seer : Option String
deriving DecidableEq

/-- Game session state (src/types.ts, interface GameState). The append-only
log is not modelled: log entries are opaque emitted strings with no effect
on resolution. -/
structure GameState where
  players : List Player
  phase : Phase
  dayCount : Nat
  moonPhase : String
  winner : Option Team
  userPlayerId : String
  targets : Targets
  seerKnowledge : List (String × Role)
deriving DecidableEq

/-- A bot rune action (src/types.ts, BotNightAction.runeActions element). -/
structure RuneAction where
  playerId : String
  runeId : String
  targetId : String
deriving DecidableEq

/-- Oracle night proposals (src/types.ts, interface BotNightAction). -/
structure BotNightAction where
  werewolfKillTargetId : Option String
  doctorSaveTargetId : Option String
  seerCheckTargetId : Option String
  runeActions : List RuneAction
deriving DecidableEq

/-- Oracle day proposal for one bot (src/types.ts, interface BotDayAction). -/
structure BotDayAction where
  playerId : String
  chatMessage : String
  voteTargetId : Option String
  reasoning : String
deriving DecidableEq

/-- The user's pending action mode in the night UI (src/App.tsx,
activeActionType state). -/
inductive ActionType
  | ROLE
  | RUNE
deriving DecidableEq

/-- Number of alive players whose role is WEREWOLF (src/App.tsx line 429). -/
def aliveWerewolves (players : List Player) : Nat :=
  (players.filter (fun p => p.isAlive && p.role == Role.WEREWOLF)).length

/-- Number of alive players whose role is not WEREWOLF (src/App.tsx line 430). -/
def aliveVillagers (players : List Player) : Nat :=
  (players.filter (fun p => p.isAlive && !(p.role == Role.WEREWOLF))).length

/-- Win evaluator (src/App.tsx, checkWinCondition). Returns the team passed
to setWinner, or none when the game continues. -/
def checkWinCondition (currentPlayers : List Player) : Option Team :=
  if aliveWerewolves currentPlayers = 0 then
    some Team.Villagers
  else if aliveVillagers currentPlayers ≤ aliveWerewolves currentPlayers then
    some Team.Werewolves
  else
    none

/-- Moon phase names (src/constants.tsx, MOON_PHASES). -/
def MOON_PHASES : List String :=
  ["New Moon", "Waxing Crescent", "First Quarter", "Waxing Gibbous",
   "Full Moon", "Waning Gibbous", "Last Quarter", "Waning Crescent"]

/-- Bot display names (src/constants.tsx, BOT_NAMES). -/
def BOT_NAMES : List String :=
  ["Silas", "Elara", "Gideon", "Thorne", "Rowan", "Lysandra", "Kael", "Mara"]

/-- Avatar URLs (src/constants.tsx, AVATAR_URLS). -/
def AVATAR_URLS : List String :=
  ["https://picsum.photos/seed/p1/200", "https://picsum.photos/seed/p2/200",
   "https://picsum.photos/seed/p3/200", "https://picsum.photos/seed/p4/200",
   "https://picsum.photos/seed/p5/200", "https://picsum.photos/seed/p6/200",
   "https://picsum.photos/seed/p7/200", "https://picsum.photos/seed/p8/200"]

/-- A rune template: a Rune minus id and currentCooldown
(src/constants.tsx, AVAILABLE_RUNES element type). -/
structure RuneTemplate where
  name : String
  type : RuneType
  description : String
  cooldown : Nat
deriving DecidableEq

/-- The distributable runes (src/constants.tsx, AVAILABLE_RUNES). -/
def AVAILABLE_RUNES : List RuneTemplate :=
  [{ name := "Lunar Sight", type := RuneType.SIGHT,
     description := "Reveal the true role of a target.", cooldown := 3 },
   { name := "Guardian Ward", type := RuneType.SHIELD,
     description := "Protect a target from death for one night.", cooldown := 3 },
   { name := "Shadow Veil", type := RuneType.SHIELD,
     description := "Protect yourself from death for one night.", cooldown := 4 }]

/-- Rune creation (src/constants.tsx, getRandomRune). The random template
index is the `pick` parameter (taken modulo the pool size, as the source's
floor(random*length) always lands in range) and the fresh uuid is the
`rid` parameter. `currentCooldown` is initialized to 0. -/
def getRandomRune (pick : Nat) (rid : String) : Rune :=
  let template := AVAILABLE_RUNES.getD (pick % AVAILABLE_RUNES.length)
    { name := "", type := RuneType.SIGHT, description := "", cooldown := 0 }
  { id := rid, name := template.name, type := template.type,
    description := template.description, cooldown := template.cooldown,
    currentCooldown := 0 }

/-- One night-intro cooldown step on a single rune (src/App.tsx lines
146-149): `currentCooldown = max(0, currentCooldown - 1)`; Nat subtraction
is already floored at 0. -/
def tickRune (r : Rune) : Rune :=
  { r with currentCooldown := r.currentCooldown - 1 }

/-- Cooldown consumption on a single rune as the night resolver applies it
(src/App.tsx lines 262 and 270): `currentCooldown = cooldown + 1`. -/
def consumeRune (r : Rune) : Rune :=
  { r with currentCooldown := r.cooldown + 1 }

/-- Night-intro cooldown reduction over the whole roster
(src/App.tsx lines 144-150). -/
def tickRunes (players : List Player) : List Player :=
  players.map (fun p => { p with runes := p.runes.map tickRune })

/-- The NIGHT_INTRO phase transition (src/App.tsx, runPhase, lines 137-163):
cycles the moon phase, ticks rune cooldowns down, and then moves to
NIGHT_ACTION. Narration is an external effect and is not modelled. -/
def nightIntro (st : GameState) : GameState :=
  { st with
    moonPhase := MOON_PHASES.getD ((st.dayCount - 1) % MOON_PHASES.length) "",
    players := tickRunes st.players,
    phase := Phase.NIGHT_ACTION }

/-- The fixed role pool (src/App.tsx line 72): the user's chosen role in
slot 0 followed by a fixed list of seven bot roles. -/
def rolesPool (selectedRole : Role) : List Role :=
  [selectedRole, Role.WEREWOLF, Role.SEER, Role.DOCTOR, Role.VILLAGER,
   Role.VILLAGER, Role.VILLAGER, Role.WEREWOLF]

/-- Bot construction (src/App.tsx lines 87-96): bot number `idx` gets
`BOT_NAMES[idx]`, `AVATAR_URLS[idx+1]`, the `idx`-th shuffled role, and one
fresh rune. The uuid supplies are the `ids`/`runeIds` parameters and the
rune randomness is the `picks` parameter, all indexed by roster slot
(slot 0 = the user). -/
def mkBots (ids runeIds : Nat → String) (picks : Nat → Nat) :
    List Role → Nat → List Player
  | [], _ => []
  | role :: rest, idx =>
      { id := ids (idx + 1), name := BOT_NAMES.getD idx "", role := role,
        isAlive := true, isBot := true, avatar := AVATAR_URLS.getD (idx + 1) "",
        votesAgainst := 0,
        runes := [getRandomRune (picks (idx + 1)) (runeIds (idx + 1))] } ::
        mkBots ids runeIds picks rest (idx + 1)

/-- Roster creation (src/App.tsx, startGame, lines 76-98) before the final
shuffle: the user player followed by the bots built from the shuffled bot
roles `botRoles` (the source's `rolesPool.slice(1)` randomly reordered). The
final `[userPlayer, ...bots].sort(random)` shuffle is modelled in the
theorems as an arbitrary permutation of this list. -/
def startRoster (selectedRole : Role) (botRoles : List Role)
    (ids runeIds : Nat → String) (picks : Nat → Nat) : List Player :=
  { id := ids 0, name := "You", role := selectedRole, isAlive := true,
    isBot := false, avatar := AVATAR_URLS.getD 0 "", votesAgainst := 0,
    runes := [getRandomRune (picks 0) (runeIds 0)] } ::
    mkBots ids runeIds picks botRoles 0

/-- Initial session state (src/App.tsx, initialState). -/
def initialState : GameState :=
  { players := [], phase := Phase.SETUP, dayCount := 0,
    moonPhase := MOON_PHASES.getD 0 "", winner := none, userPlayerId := "",
    targets := { werewolf := none, doctor := none, seer := none },
    seerKnowledge := [] }

/-- Game setup (src/App.tsx, startGame, lines 100-108), parameterized by the
shuffled bot roles and the randomness supplies as in `startRoster`. -/
def startGame (selectedRole : Role) (botRoles : List Role)
    (ids runeIds : Nat → String) (picks : Nat → Nat) : GameState :=
  { initialState with
    players := startRoster selectedRole botRoles ids runeIds picks,
    userPlayerId := ids 0,
    phase := Phase.NIGHT_INTRO,
    dayCount := 1,
    moonPhase := MOON_PHASES.getD 0 "" }

/-- Lookup of the user participant (src/App.tsx line 454). -/
def findUser (st : GameState) : Option Player :=
  st.players.find? (fun p => p.id == st.userPlayerId)

/-- Whether the user participant exists and is alive (the source's
`userPlayer?.isAlive` optional-chaining check). -/
def userIsAlive (st : GameState) : Bool :=
  match findUser st with
  | some u => u.isAlive
  | none => false

/-- Kill proposals collected by the night resolver (src/App.tsx lines
208-245): the oracle werewolf target first, then the user's target when the
user is alive, acts in ROLE mode and is a werewolf. -/
def nightKills (ba : BotNightAction) (user : Player) (atype : ActionType)
    (tgt : Option String) : List String :=
  (match ba.werewolfKillTargetId with
   | some k => [k]
   | none => []) ++
  (if user.isAlive then
    match tgt with
    | some t =>
        match atype with
        | ActionType.ROLE => if user.role == Role.WEREWOLF then [t] else []
        | ActionType.RUNE => []
    | none => []
   else [])

/-- The SHIELD-rune save produced by one oracle rune action (src/App.tsx
lines 217-224): the target counts only when the named player and rune exist
and the rune is a SHIELD. -/
def runeActionSave (players : List Player) (ra : RuneAction) : Option String :=
  match players.find? (fun p => p.id == ra.playerId) with
  | some runePlayer =>
      match runePlayer.runes.find? (fun r => r.id == ra.runeId) with
      | some rune =>
          if rune.type == RuneType.SHIELD then some ra.targetId else none
      | none => none
  | none => none

/-- The user's contribution to the protect set (src/App.tsx lines 230-244):
a DOCTOR acting in ROLE mode, or a found SHIELD rune in RUNE mode. -/
def userSaves (user : Player) (atype : ActionType) (rid : Option String)
    (tgt : Option String) : List String :=
  if user.isAlive then
    match tgt with
    | some t =>
        match atype with
        | ActionType.ROLE => if user.role == Role.DOCTOR then [t] else []
        | ActionType.RUNE =>
            match rid with
            | some r =>
                match user.runes.find? (fun ru => ru.id == r) with
                | some rune =>
                    if rune.type == RuneType.SHIELD then [t] else []
                | none => []
            | none => []
    | none => []
  else []

/-- Protect proposals collected by the night resolver, in source push order
(src/App.tsx lines 209-244): oracle doctor save, oracle SHIELD-rune saves,
then the user's save. -/
def nightSaves (players : List Player) (ba : BotNightAction) (user : Player)
    (atype : ActionType) (rid : Option String) (tgt : Option String) :
    List String :=
  (match ba.doctorSaveTargetId with
   | some s => [s]
   | none => []) ++
  ba.runeActions.filterMap (runeActionSave players) ++
  userSaves user atype rid tgt

/-- Reveal proposals collected by the night resolver (src/App.tsx lines
210-244): only the user contributes (a SEER in ROLE mode or a found SIGHT
rune in RUNE mode); oracle SIGHT runes and the oracle seer check produce no
recorded reveal. -/
def nightReveals (user : Player) (atype : ActionType) (rid : Option String)
    (tgt : Option String) : List String :=
  if user.isAlive then
    match tgt with
    | some t =>
        match atype with
        | ActionType.ROLE => if user.role == Role.SEER then [t] else []
        | ActionType.RUNE =>
            match rid with
            | some r =>
                match user.runes.find? (fun ru => ru.id == r) with
                | some rune =>
                    if rune.type == RuneType.SIGHT then [t] else []
                | none => []
            | none => []
    | none => []
  else []

/-- The rune id the user finalizes this pass (src/App.tsx lines 235-243):
set exactly when the user is alive, targeted someone in RUNE mode and the
selected rune id is found among the user's runes. -/
def userUsedRune (user : Player) (atype : ActionType) (rid : Option String)
    (tgt : Option String) : Option String :=
  if user.isAlive then
    match tgt with
    | some _ =>
        match atype with
        | ActionType.ROLE => none
        | ActionType.RUNE =>
            match rid with
            | some r =>
                if (user.runes.find? (fun ru => ru.id == r)).isSome then some r
                else none
            | none => none
    | none => none
  else none

/-- JS-object assignment `m[key] = v` on an association list: overwrite the
existing entry for `key` in place, else append. -/
def assocSet (m : List (String × Role)) (key : String) (v : Role) :
    List (String × Role) :=
  match m with
  | [] => [(key, v)]
  | e :: rest =>
      if e.1 == key then (key, v) :: rest else e :: assocSet rest key v

/-- Knowledge-map update from the reveal list (src/App.tsx lines 248-255):
each reveal target found in the roster has its true role written into the
map; absent target ids are skipped. -/
def applyReveals (players : List Player) (know : List (String × Role)) :
    List String → List (String × Role)
  | [] => know
  | tid :: rest =>
      match players.find? (fun p => p.id == tid) with
      | some target => applyReveals players (assocSet know target.id target.role) rest
      | none => applyReveals players know rest

/-- Cooldown consumption over the user's rune list (src/App.tsx line 262 and
line 270): the rune with the given id gets `currentCooldown = cooldown + 1`. -/
def consumeRuneList (runes : List Rune) (rid : String) : List Rune :=
  runes.map (fun r => if r.id == rid then consumeRune r else r)

/-- Cooldown update over the roster (src/App.tsx lines 258-274): the user's
finalized rune is consumed; otherwise any player named in an oracle rune
action has the named rune consumed. -/
def applyRuneConsumption (players : List Player) (userId : String)
    (usedRune : Option String) (ba : BotNightAction) : List Player :=
  players.map (fun p =>
    if p.id == userId && usedRune.isSome then
      { p with runes := consumeRuneList p.runes (usedRune.getD "") }
    else
      match ba.runeActions.find? (fun b => b.playerId == p.id) with
      | some botAction =>
          { p with runes := consumeRuneList p.runes botAction.runeId }
      | none => p)

/-- Night resolution (src/App.tsx, confirmNightAction, lines 198-295),
parameterized by the oracle proposals and the user's pending UI action.
Returns none when the source would throw (no user participant in the
roster); returns the state unchanged on the early-return guard (no selected
target while the user is alive). -/
def confirmNightAction (st : GameState) (ba : BotNightAction)
    (atype : ActionType) (rid : Option String) (tgt : Option String) :
    Option GameState :=
  if tgt = none && userIsAlive st then some st
  else
    match findUser st with
    | none => none
    | some user =>
        let kills := nightKills ba user atype tgt
        let saves := nightSaves st.players ba user atype rid tgt
        let reveals := nightReveals user atype rid tgt
        let newKnowledge := applyReveals st.players st.seerKnowledge reveals
        let usedRune := userUsedRune user atype rid tgt
        let nextPlayers := applyRuneConsumption st.players user.id usedRune ba
        let primaryWWTarget := kills.head?
        let primaryDocTarget :=
          if saves.contains (primaryWWTarget.getD "") then primaryWWTarget
          else none
        some { st with
          players := nextPlayers,
          targets := { werewolf := primaryWWTarget, doctor := primaryDocTarget,
                       seer := none },
          seerKnowledge := newKnowledge,
          phase := Phase.DAY_INTRO }

/-- Kill the first roster entry carrying the given id (the source's
`players.find(...)` followed by mutating `isAlive = false`,
src/App.tsx lines 310-313 and 398-400). -/
def killFirst : List Player → String → List Player
  | [], _ => []
  | p :: rest, k =>
      if p.id == k then { p with isAlive := false } :: rest
      else p :: killFirst rest k

/-- The roster after death application (src/App.tsx lines 304-317): no
werewolf target means no death; a werewolf target equal to the doctor
target is rescued; otherwise the first roster entry with the target id
dies. -/
def nightDeaths (st : GameState) : List Player :=
  match st.targets.werewolf with
  | none => st.players
  | some killedId =>
      if st.targets.doctor == some killedId then st.players
      else killFirst st.players killedId

/-- Death application at the DAY_INTRO transition (src/App.tsx,
processNightResults, lines 297-331): apply `nightDeaths`, move to
DAY_DISCUSSION, and let the win evaluator short-circuit to GAME_OVER. -/
def processNightResults (st : GameState) : GameState :=
  match checkWinCondition (nightDeaths st) with
  | some team =>
      { st with players := nightDeaths st, phase := Phase.GAME_OVER,
                winner := some team }
  | none =>
      { st with players := nightDeaths st, phase := Phase.DAY_DISCUSSION }

/-- One vote increment in the JS tally object (src/App.tsx lines 367-375):
bump the existing entry for the key, else append a new entry with count 1;
entry order is first-insertion order, matching Object.entries enumeration. -/
def bump : List (String × Nat) → String → List (String × Nat)
  | [], k => [(k, 1)]
  | e :: rest, k =>
      if e.1 == k then (e.1, e.2 + 1) :: rest else e :: bump rest k

/-- The vote tally (src/App.tsx lines 365-376): each oracle action with a
target contributes one vote, then the user's vote when the user is alive
and has a target. -/
def tallyBase (botActions : List BotDayAction) : List (String × Nat) :=
  botActions.foldl
    (fun counts a =>
      match a.voteTargetId with
      | some t => bump counts t
      | none => counts) []

/-- The full tally: the oracle votes plus the user's vote when the user is
alive and has a target (src/App.tsx lines 373-376). -/
def dayTally (players : List Player) (userId : String)
    (botActions : List BotDayAction) (tgt : Option String) :
    List (String × Nat) :=
  match players.find? (fun p => p.id == userId) with
  | some u =>
      if u.isAlive then
        match tgt with
        | some t => bump (tallyBase botActions) t
        | none => tallyBase botActions
      else tallyBase botActions
  | none => tallyBase botActions

/-- One step of the elimination fold (src/App.tsx lines 380-387): a strictly
larger count takes the lead, an equal count clears the leader (tie). -/
def voteFoldStep (acc : Option String × Nat) (e : String × Nat) :
    Option String × Nat :=
  if acc.2 < e.2 then (some e.1, e.2)
  else if e.2 = acc.2 then (none, acc.2)
  else acc

/-- The elimination decision (src/App.tsx lines 378-387): fold the tally
entries in enumeration order starting from no leader and max 0. -/
def pickEliminated (entries : List (String × Nat)) : Option String :=
  (entries.foldl voteFoldStep (none, 0)).1

/-- Day-vote resolution (src/App.tsx, confirmVote, lines 359-424): early
return when the user is alive without a target; otherwise tally, decide the
elimination, populate `votesAgainst`, apply the death, reset `votesAgainst`
and either loop back to NIGHT_INTRO (incrementing dayCount and clearing the
pending targets) or — on a win — enter GAME_OVER keeping the roster whose
`votesAgainst` still holds the tally, because the winner transition reuses
the previous players snapshot (the reset array is dropped on that path).
First, accumulator population (src/App.tsx lines 389-392). -/
def votePopulated (players : List Player) (counts : List (String × Nat)) :
    List Player :=
  players.map (fun p => { p with votesAgainst := (counts.lookup p.id).getD 0 })

/-- Elimination application (src/App.tsx lines 397-404): the first roster
entry carrying the eliminated id dies; a tie eliminates no one. -/
def voteApplied (players : List Player) (eliminatedId : Option String) :
    List Player :=
  match eliminatedId with
  | some e => killFirst players e
  | none => players

/-- Vote-accumulator reset (src/App.tsx line 410). -/
def voteReset (players : List Player) : List Player :=
  players.map (fun p => { p with votesAgainst := 0 })

/-- The voted roster before the reset: accumulators populated and the
elimination applied. -/
def votedPlayers (st : GameState) (botActions : List BotDayAction)
    (tgt : Option String) : List Player :=
  voteApplied
    (votePopulated st.players (dayTally st.players st.userPlayerId botActions tgt))
    (pickEliminated (dayTally st.players st.userPlayerId botActions tgt))

def confirmVote (st : GameState) (botActions : List BotDayAction)
    (tgt : Option String) : GameState :=
  if tgt = none && userIsAlive st then st
  else
    match checkWinCondition (voteReset (votedPlayers st botActions tgt)) with
    | some team =>
        { st with players := votedPlayers st botActions tgt,
                  winner := some team, phase := Phase.GAME_OVER }
    | none =>
        { st with players := voteReset (votedPlayers st botActions tgt),
                  phase := Phase.NIGHT_INTRO,
                  dayCount := st.dayCount + 1,
                  targets := { werewolf := none, doctor := none, seer := none } }

/-- The cooldown range invariant: every rune's remaining cooldown is at most
its total cooldown plus one (the source's consume resets to cooldown + 1, so
cooldown + 1 is the true upper bound; the spec claims cooldown). -/
def cooldownInvariant (players : List Player) : Prop :=
  ∀ p ∈ players, ∀ r ∈ p.runes, r.currentCooldown ≤ r.cooldown + 1

instance decCooldownInvariant (players : List Player) :
    Decidable (cooldownInvariant players) := by
  unfold cooldownInvariant
  exact inferInstance

/-- Projection of a player to every field except isAlive and votesAgainst,
used for frame conditions. -/
def playerFrame (p : Player) : String × String × Role × Bool × String × List Rune :=
  (p.id, p.name, p.role, p.isBot, p.avatar, p.runes)

/-- Projection of a player to its id and aliveness. -/
def aliveView (p : Player) : String × Bool :=
  (p.id, p.isAlive)

/-- Maximum vote count among the tally entries (0 for an empty tally). -/
def maxCount : List (String × Nat) → Nat
  | [] => 0
  | e :: rest => max e.2 (maxCount rest)

/-- Written from the spec's words for comparison with the fold in the
source: the unique holder of the maximum count, if any — find the entries
whose count equals the maximum and return the key only when exactly one
entry qualifies. -/
def uniqueMaxHolder (entries : List (String × Nat)) : Option String :=
  match entries.filter (fun e => e.2 == maxCount entries) with
  | [e] => some e.1
  | _ => none

/-- Boolean consistency of the knowledge map with the roster: every recorded
entry maps an id to the role held by the first roster player with that id. -/
def knowledgeConsistent (players : List Player)
    (know : List (String × Role)) : Bool :=
  know.all (fun e =>
    match players.find? (fun x => x.id == e.1) with
    | some q => q.role == e.2
    | none => true)

/-- Concrete test player used by witnesses and counterexamples. -/
def samplePlayer (pid : String) (role : Role) (alive : Bool)
    (rs : List Rune) : Player :=
  { id := pid, name := pid, role := role, isAlive := alive, isBot := true,
    avatar := "", votesAgainst := 0, runes := rs }

/-- Concrete test session used by witnesses and counterexamples. -/
def sampleState (players : List Player) (uid : String) : GameState :=
  { initialState with
    players := players,
    userPlayerId := uid,
    phase := Phase.NIGHT_ACTION }

/-- An oracle night response proposing nothing. -/
def emptyNightOracle : BotNightAction :=
  { werewolfKillTargetId := none, doctorSaveTargetId := none,
    seerCheckTargetId := none, runeActions := [] }

/-- A concrete SHIELD rune with cooldown period 3, ready. -/
def guardRune : Rune :=
  { id := "r1", name := "Guardian Ward", type := RuneType.SHIELD,
    description := "", cooldown := 3, currentCooldown := 0 }

/-- A concrete SIGHT rune with cooldown period 3, ready. -/
def sightRune : Rune :=
  { id := "r2", name := "Lunar Sight", type := RuneType.SIGHT,
    description := "", cooldown := 3, currentCooldown := 0 }

/-- Fixture for the cooldown-consumption claims: the alive user "u" holds a
ready SHIELD rune with cooldown period 3. -/
def c4State : GameState :=
  sampleState
    [samplePlayer "u" Role.VILLAGER true [guardRune],
     samplePlayer "b" Role.WEREWOLF true []] "u"

/-- Fixture for the invalid-target claims: the alive seer user "u" and a
dead werewolf "d". -/
def c9State : GameState :=
  sampleState
    [samplePlayer "u" Role.SEER true [],
     samplePlayer "d" Role.WEREWOLF false []] "u"

/-- Fixture for the voting claims: an alive villager user "u" and one alive
werewolf bot "w", in the voting phase. -/
def c7State : GameState :=
  { sampleState
      [samplePlayer "u" Role.VILLAGER true [],
       samplePlayer "w" Role.WEREWOLF true []] "u" with
    phase := Phase.DAY_VOTING }

/-- Fixture for the night-death claims: three alive players with the
pending werewolf target "v" and no doctor target. -/
def c2State : GameState :=
  { sampleState
      [samplePlayer "u" Role.VILLAGER true [],
       samplePlayer "v" Role.VILLAGER true [],
       samplePlayer "w" Role.WEREWOLF true []] "u" with
    targets := { werewolf := some "v", doctor := none, seer := none },
    phase := Phase.DAY_INTRO }

/-- Fixture for the knowledge-map claims: an alive seer user with one
previously revealed werewolf. -/
def c8State : GameState :=
  { sampleState
      [samplePlayer "u" Role.SEER true [],
       samplePlayer "w" Role.WEREWOLF true [],
       samplePlayer "v" Role.VILLAGER true []] "u" with
    seerKnowledge := [("w", Role.WEREWOLF)] }

/-- Fixture for the night-resolution witness: an alive doctor user, a
villager and a werewolf. -/
def c2NightState : GameState :=
  sampleState
    [samplePlayer "u" Role.DOCTOR true [],
     samplePlayer "w" Role.VILLAGER true [],
     samplePlayer "k" Role.WEREWOLF true []] "u"

/-- Fixture oracle response proposing to kill "w". -/
def c2Oracle : BotNightAction :=
  { werewolfKillTargetId := some "w", doctorSaveTargetId := none,
    seerCheckTargetId := none, runeActions := [] }

/-- Fixture for the invalid oracle-proposal counterexample: the alive
werewolf user "u", an alive villager "v" and a dead villager "d". -/
def c9bState : GameState :=
  sampleState
    [samplePlayer "u" Role.WEREWOLF true [],
     samplePlayer "v" Role.VILLAGER true [],
     samplePlayer "d" Role.VILLAGER false []] "u"

/-- Fixture oracle response proposing to kill the dead participant "d". -/
def c9bOracle : BotNightAction :=
  { werewolfKillTargetId := some "d", doctorSaveTargetId := none,
    seerCheckTargetId := none, runeActions := [] }

/-- Fixture for the vote-reset witness: enough villagers that one
elimination does not end the game. -/
def c7bState : GameState :=
  { sampleState
      [samplePlayer "u" Role.VILLAGER true [],
       samplePlayer "w" Role.WEREWOLF true [],
       samplePlayer "v2" Role.VILLAGER true [],
       samplePlayer "v3" Role.VILLAGER true []] "u" with
    phase := Phase.DAY_VOTING }

/-- Claim C1: the win evaluation returns a Villagers win exactly when the
number of alive werewolves is 0, a Werewolves win exactly when that number
is at least 1 and at least the number of alive non-werewolves, and no
winner otherwise. -/
theorem checkWinCondition_characterization (players : List Player) :
    (checkWinCondition players = some Team.Villagers ↔
      aliveWerewolves players = 0) ∧
    (checkWinCondition players = some Team.Werewolves ↔
      1 ≤ aliveWerewolves players ∧
        aliveVillagers players ≤ aliveWerewolves players) ∧
    (checkWinCondition players = none ↔
      1 ≤ aliveWerewolves players ∧
        aliveWerewolves players < aliveVillagers players) := by
  unfold checkWinCondition
  by_cases h0 : aliveWerewolves players = 0
  · simp [h0]
  · by_cases h1 : aliveVillagers players ≤ aliveWerewolves players
    · simp [h0, h1, Nat.one_le_iff_ne_zero]
    · simp [h0, h1, Nat.one_le_iff_ne_zero, Nat.lt_of_not_le h1]

/-- Claim C10: whenever no alive participant is a werewolf — including the
all-dead roster, where both counts are zero — the zero-werewolves branch
takes precedence and Villagers win. -/
theorem checkWinCondition_no_alive_werewolves (players : List Player)
    (h : ∀ p ∈ players, p.isAlive = true → p.role ≠ Role.WEREWOLF) :
    checkWinCondition players = some Team.Villagers := by
  have hzero : aliveWerewolves players = 0 := by
    unfold aliveWerewolves
    rw [List.length_eq_zero, List.filter_eq_nil_iff]
    intro p hp
    intro hcontra
    rcases Bool.and_eq_true _ _ |>.mp hcontra with ⟨ha, hw⟩
    exact h p hp ha (by simpa using hw)
  unfold checkWinCondition
  simp [hzero]

/-- Witness for C10 at a concrete all-dead roster (zero alive werewolves and
zero alive non-werewolves simultaneously). -/
theorem checkWinCondition_no_alive_werewolves_witness :
    checkWinCondition
      [{ id := "a", name := "A", role := Role.WEREWOLF, isAlive := false,
         isBot := true, avatar := "", votesAgainst := 0, runes := [] },
       { id := "b", name := "B", role := Role.VILLAGER, isAlive := false,
         isBot := true, avatar := "", votesAgainst := 0, runes := [] }] =
      some Team.Villagers :=
  checkWinCondition_no_alive_werewolves _ (by decide)

/-- Helper: a map whose function fixes every element of a list is the
identity on that list. -/
theorem listMapSelf {α : Type} (f : α → α) :
    ∀ l : List α, (∀ a ∈ l, f a = a) → l.map f = l := by
  intro l
  induction l with
  | nil => intro _; rfl
  | cons a rest ih =>
      intro h
      simp only [List.map_cons]
      rw [h a (List.mem_cons_self a rest), ih (fun b hb => h b (List.mem_cons_of_mem a hb))]

/-- Helper: iterating the per-rune cooldown tick n times subtracts n
(floored at 0 by Nat subtraction). -/
theorem tickRune_iterate (n : Nat) (r : Rune) :
    (tickRune^[n]) r = { r with currentCooldown := r.currentCooldown - n } := by
  induction n generalizing r with
  | zero => cases r; simp
  | succ n ih =>
      rw [Function.iterate_succ_apply, ih]
      cases r
      simp only [tickRune]
      congr 1
      omega

/-- Helper: consuming preserves the per-rune cooldown bound
currentCooldown ≤ cooldown + 1 across a rune list. -/
theorem runesBound_consumeRuneList {runes : List Rune} {rid : String}
    (h : ∀ r ∈ runes, r.currentCooldown ≤ r.cooldown + 1) :
    ∀ r ∈ consumeRuneList runes rid, r.currentCooldown ≤ r.cooldown + 1 := by
  intro r hr
  rcases List.mem_map.mp hr with ⟨r0, hr0, rfl⟩
  by_cases hid : (r0.id == rid) = true
  · simp [hid, consumeRune]
  · simp only [hid, if_false, Bool.false_eq_true]
    exact h r0 hr0

/-- Helper: the rune-consumption pass preserves the cooldown bound. -/
theorem cooldownInvariant_applyRuneConsumption (players : List Player)
    (userId : String) (usedRune : Option String) (ba : BotNightAction)
    (h : cooldownInvariant players) :
    cooldownInvariant (applyRuneConsumption players userId usedRune ba) := by
  intro p hp
  rcases List.mem_map.mp hp with ⟨p0, hp0, rfl⟩
  by_cases hc : (p0.id == userId && usedRune.isSome) = true
  · simp only [hc, if_true]
    exact runesBound_consumeRuneList (h p0 hp0)
  · simp only [hc, Bool.false_eq_true, if_false]
    cases hfind : ba.runeActions.find? (fun b => b.playerId == p0.id) with
    | some bact =>
        simp only [hfind]
        exact runesBound_consumeRuneList (h p0 hp0)
    | none =>
        simp only [hfind]
        exact h p0 hp0

/-- Helper: every member of killFirst is a member of the original roster,
possibly with isAlive set to false. -/
theorem killFirst_mem_shape :
    ∀ (ps : List Player) (k : String), ∀ q ∈ killFirst ps k,
      q ∈ ps ∨ ∃ p ∈ ps, q = { p with isAlive := false } := by
  intro ps k
  induction ps with
  | nil => intro q hq; cases hq
  | cons p rest ih =>
      intro q hq
      by_cases hid : (p.id == k) = true
      · simp only [killFirst, hid, if_true] at hq
        rcases List.mem_cons.mp hq with h1 | h2
        · right; exact ⟨p, List.mem_cons_self p rest, h1⟩
        · left; exact List.mem_cons_of_mem p h2
      · simp only [killFirst, hid, Bool.false_eq_true, if_false] at hq
        rcases List.mem_cons.mp hq with h1 | h2
        · left; rw [h1]; exact List.mem_cons_self p rest
        · rcases ih q h2 with h3 | ⟨p1, hp1, h4⟩
          · left; exact List.mem_cons_of_mem p h3
          · right; exact ⟨p1, List.mem_cons_of_mem p hp1, h4⟩

/-- Helper: killFirst preserves the cooldown bound. -/
theorem cooldownInvariant_killFirst (ps : List Player) (k : String)
    (h : cooldownInvariant ps) : cooldownInvariant (killFirst ps k) := by
  intro q hq
  rcases killFirst_mem_shape ps k q hq with h1 | ⟨p, hp, rfl⟩
  · exact h q h1
  · exact h p hp

/-- Helper: bots are created with a single fresh rune. -/
theorem mkBots_runes (ids runeIds : Nat → String) (picks : Nat → Nat) :
    ∀ (l : List Role) (idx : Nat), ∀ p ∈ mkBots ids runeIds picks l idx,
      ∃ n s, p.runes = [getRandomRune n s] := by
  intro l
  induction l with
  | nil => intro idx p hp; cases hp
  | cons role rest ih =>
      intro idx p hp
      rcases List.mem_cons.mp hp with h1 | h2
      · exact ⟨picks (idx + 1), runeIds (idx + 1), by rw [h1]⟩
      · exact ih (idx + 1) p h2

/-- Helper: fresh runes are created ready. -/
theorem getRandomRune_ready (n : Nat) (s : String) :
    (getRandomRune n s).currentCooldown = 0 := rfl

/-- Helper: the night resolver preserves the cooldown bound. -/
theorem cooldownInvariant_confirmNightAction (st : GameState)
    (ba : BotNightAction) (atype : ActionType) (rid : Option String)
    (tgt : Option String) (st' : GameState)
    (h : confirmNightAction st ba atype rid tgt = some st')
    (hinv : cooldownInvariant st.players) : cooldownInvariant st'.players := by
  unfold confirmNightAction at h
  by_cases hg : (decide (tgt = none) && userIsAlive st) = true
  · rw [if_pos hg] at h
    simp only [Option.some.injEq] at h
    rw [← h]
    exact hinv
  · rw [if_neg hg] at h
    cases hu : findUser st with
    | none => rw [hu] at h; cases h
    | some user =>
        rw [hu] at h
        simp only [Option.some.injEq] at h
        rw [← h]
        exact cooldownInvariant_applyRuneConsumption _ _ _ _ hinv

/-- Helper: the night-intro tick preserves the cooldown bound. -/
theorem cooldownInvariant_nightIntro (st : GameState)
    (hinv : cooldownInvariant st.players) :
    cooldownInvariant (nightIntro st).players := by
  intro p hp
  simp only [nightIntro, tickRunes] at hp
  rcases List.mem_map.mp hp with ⟨p0, hp0, rfl⟩
  intro r hr
  rcases List.mem_map.mp hr with ⟨r0, hr0, rfl⟩
  have := hinv p0 hp0 r0 hr0
  simp only [tickRune]
  omega

/-- Helper: death application preserves the cooldown bound. -/
theorem cooldownInvariant_processNightResults (st : GameState)
    (hinv : cooldownInvariant st.players) :
    cooldownInvariant (processNightResults st).players := by
  have hnd : cooldownInvariant (nightDeaths st) := by
    unfold nightDeaths
    split
    · exact hinv
    · split
      · exact hinv
      · exact cooldownInvariant_killFirst _ _ hinv
  unfold processNightResults
  split
  · exact hnd
  · exact hnd

/-- Helper: day-vote resolution preserves the cooldown bound. -/
theorem cooldownInvariant_confirmVote (st : GameState)
    (ba : List BotDayAction) (tgt : Option String)
    (hinv : cooldownInvariant st.players) :
    cooldownInvariant (confirmVote st ba tgt).players := by
  have hpop : ∀ counts, cooldownInvariant (votePopulated st.players counts) := by
    intro counts p hp
    rcases List.mem_map.mp hp with ⟨p0, hp0, rfl⟩
    exact hinv p0 hp0
  have hvoted : cooldownInvariant (votedPlayers st ba tgt) := by
    unfold votedPlayers voteApplied
    split
    · exact cooldownInvariant_killFirst _ _ (hpop _)
    · exact hpop _
  have hreset : cooldownInvariant (voteReset (votedPlayers st ba tgt)) := by
    intro p hp
    rcases List.mem_map.mp hp with ⟨p0, hp0, rfl⟩
    exact hvoted p0 hp0
  unfold confirmVote
  split
  · exact hinv
  · split
    · exact hvoted
    · exact hreset

/-- Helper: the created roster satisfies the cooldown bound. -/
theorem cooldownInvariant_startRoster (selectedRole : Role)
    (botRoles : List Role) (ids runeIds : Nat → String) (picks : Nat → Nat) :
    cooldownInvariant (startRoster selectedRole botRoles ids runeIds picks) := by
  intro p hp
  rcases List.mem_cons.mp hp with h1 | h2
  · intro r hr
    rw [h1] at hr
    simp only [List.mem_singleton] at hr
    rw [hr, getRandomRune_ready]
    exact Nat.zero_le _
  · rcases mkBots_runes ids runeIds picks botRoles 0 p h2 with ⟨n, s, hrs⟩
    intro r hr
    rw [hrs] at hr
    simp only [List.mem_singleton] at hr
    rw [hr, getRandomRune_ready]
    exact Nat.zero_le _

/-- Claim C4 counterexample: finalizing the use of a ready SHIELD rune with
cooldown period 3 leaves its remaining cooldown at 4, not 3 — so the claim
that consumption sets remainingCooldown to exactly cooldownPeriod, keeping
it in [0, cooldownPeriod], is false on the code. -/
theorem consume_exceeds_period_counterexample :
    guardRune.cooldown = 3 ∧
    (confirmNightAction c4State emptyNightOracle ActionType.RUNE (some "r1")
        (some "b")).map
      (fun s => s.players.map (fun p => p.runes.map Rune.currentCooldown)) =
      some [[4], []] ∧
    ¬ ((confirmNightAction c4State emptyNightOracle ActionType.RUNE (some "r1")
        (some "b")).map
      (fun s => s.players.map (fun p => p.runes.map Rune.currentCooldown)) =
      some [[3], []]) := by
  refine ⟨rfl, ?_, ?_⟩ <;> decide

/-- Claim C4 as amended: whenever a rune's use is finalized during a
night-resolution pass, its remaining cooldown is set to cooldownPeriod + 1
(not cooldownPeriod), and consequently every reachable state satisfies
remainingCooldown ≤ cooldownPeriod + 1: the bound holds for the created
roster and is preserved by every transition. -/
theorem consume_sets_cooldown_plus_one :
    (∀ r : Rune, (consumeRune r).currentCooldown = r.cooldown + 1 ∧
      (consumeRune r).cooldown = r.cooldown) ∧
    (∀ (st : GameState) (ba : BotNightAction) (atype : ActionType)
      (rid tgt : Option String) (st' : GameState),
      confirmNightAction st ba atype rid tgt = some st' →
      cooldownInvariant st.players → cooldownInvariant st'.players) ∧
    (∀ st : GameState, cooldownInvariant st.players →
      cooldownInvariant (nightIntro st).players) ∧
    (∀ st : GameState, cooldownInvariant st.players →
      cooldownInvariant (processNightResults st).players) ∧
    (∀ (st : GameState) (ba : List BotDayAction) (tgt : Option String),
      cooldownInvariant st.players →
      cooldownInvariant (confirmVote st ba tgt).players) ∧
    (∀ (selectedRole : Role) (botRoles : List Role)
      (ids runeIds : Nat → String) (picks : Nat → Nat),
      cooldownInvariant (startRoster selectedRole botRoles ids runeIds picks)) := by
  refine ⟨?_, cooldownInvariant_confirmNightAction,
    cooldownInvariant_nightIntro, cooldownInvariant_processNightResults,
    cooldownInvariant_confirmVote, cooldownInvariant_startRoster⟩
  intro r
  exact ⟨rfl, rfl⟩

/-- Witness for the amended C4 at concrete inputs: a concrete consumption
sets 3 + 1, and the bound is preserved through a concrete night resolution
and a concrete vote resolution. -/
theorem consume_sets_cooldown_plus_one_witness :
    ((consumeRune guardRune).currentCooldown = guardRune.cooldown + 1 ∧
      (consumeRune guardRune).cooldown = guardRune.cooldown) ∧
    cooldownInvariant (nightIntro c4State).players ∧
    cooldownInvariant (confirmVote c7State [] (some "w")).players :=
  ⟨consume_sets_cooldown_plus_one.1 guardRune,
   consume_sets_cooldown_plus_one.2.2.1 c4State (by decide),
   consume_sets_cooldown_plus_one.2.2.2.2.1 c7State [] (some "w") (by decide)⟩

/-- Claim C6 counterexample: for a ready rune with cooldown period 3,
tick-consume-tick³ leaves remaining cooldown 1, not 0, and a second
immediate consume leaves it at 4, not at the cooldown period 3 — so the
claimed round-trip identities are false on the code. -/
theorem tick_consume_roundtrip_counterexample :
    ¬ (((tickRune^[guardRune.cooldown]) (consumeRune (tickRune guardRune))).currentCooldown = 0) ∧
    ((tickRune^[guardRune.cooldown]) (consumeRune (tickRune guardRune))).currentCooldown = 1 ∧
    ¬ ((consumeRune (consumeRune guardRune)).currentCooldown = guardRune.cooldown) := by
  refine ⟨?_, ?_, ?_⟩ <;> decide

/-- Claim C6 as amended: for a ready rune, tick then consume then
cooldownPeriod ticks leaves remaining cooldown 1 (one further tick reaches
0); a second consume immediately after the first is a no-op, leaving the
cooldown at cooldownPeriod + 1; and ticking a roster whose runes are all
ready changes nothing. -/
theorem tick_consume_roundtrip_amended :
    (∀ r : Rune, r.currentCooldown = 0 →
      ((tickRune^[r.cooldown]) (consumeRune (tickRune r))).currentCooldown = 1 ∧
      ((tickRune^[r.cooldown + 1]) (consumeRune (tickRune r))).currentCooldown = 0 ∧
      consumeRune (consumeRune r) = consumeRune r ∧
      (consumeRune r).currentCooldown = r.cooldown + 1) ∧
    (∀ players : List Player,
      (∀ p ∈ players, ∀ ru ∈ p.runes, ru.currentCooldown = 0) →
      tickRunes players = players) := by
  constructor
  · intro r _
    refine ⟨?_, ?_, ?_, rfl⟩
    · rw [tickRune_iterate]
      simp only [consumeRune, tickRune]
      omega
    · rw [tickRune_iterate]
      simp only [consumeRune, tickRune]
      omega
    · cases r
      simp [consumeRune]
  · intro players h
    unfold tickRunes
    apply listMapSelf
    intro p hp
    have hrunes : p.runes.map tickRune = p.runes := by
      apply listMapSelf
      intro ru hru
      have h0 := h p hp ru hru
      cases ru
      simp only [tickRune]
      simp only [Rune.mk.injEq] at h0 ⊢
      simp_all
    cases p
    simp only at hrunes
    simp [hrunes]

/-- Witness for the amended C6 at a concrete ready rune and a concrete
all-ready roster. -/
theorem tick_consume_roundtrip_amended_witness :
    (((tickRune^[guardRune.cooldown]) (consumeRune (tickRune guardRune))).currentCooldown = 1 ∧
      ((tickRune^[guardRune.cooldown + 1]) (consumeRune (tickRune guardRune))).currentCooldown = 0 ∧
      consumeRune (consumeRune guardRune) = consumeRune guardRune ∧
      (consumeRune guardRune).currentCooldown = guardRune.cooldown + 1) ∧
    tickRunes [samplePlayer "u" Role.VILLAGER true [guardRune]] =
      [samplePlayer "u" Role.VILLAGER true [guardRune]] :=
  ⟨tick_consume_roundtrip_amended.1 guardRune (by decide),
   tick_consume_roundtrip_amended.2 _ (by decide)⟩

/-- Helper: the bots carry exactly the shuffled bot roles, in order. -/
theorem mkBots_map_role (ids runeIds : Nat → String) (picks : Nat → Nat) :
    ∀ (l : List Role) (idx : Nat),
      (mkBots ids runeIds picks l idx).map Player.role = l := by
  intro l
  induction l with
  | nil => intro idx; rfl
  | cons role rest ih =>
      intro idx
      have h1 : (mkBots ids runeIds picks (role :: rest) idx).map Player.role =
          role :: (mkBots ids runeIds picks rest (idx + 1)).map Player.role := rfl
      rw [h1, ih (idx + 1)]

/-- Helper: the bots carry the id supply at slots idx+1, idx+2, …. -/
theorem mkBots_map_id (ids runeIds : Nat → String) (picks : Nat → Nat) :
    ∀ (l : List Role) (idx : Nat),
      (mkBots ids runeIds picks l idx).map Player.id =
        (List.range l.length).map (fun i => ids (idx + 1 + i)) := by
  intro l
  induction l with
  | nil => intro idx; rfl
  | cons role rest ih =>
      intro idx
      have h1 : (mkBots ids runeIds picks (role :: rest) idx).map Player.id =
          ids (idx + 1) :: (mkBots ids runeIds picks rest (idx + 1)).map Player.id := rfl
      rw [h1, ih (idx + 1), List.length_cons, List.range_succ_eq_map,
        List.map_cons, List.map_map]
      simp only [List.cons.injEq]
      constructor
      · trivial
      · apply List.map_congr_left
        intro a _
        simp only [Function.comp_apply]
        congr 1
        omega

/-- Helper: the created roster's ids are the id supply at slots 0..n. -/
theorem startRoster_map_id (selectedRole : Role) (botRoles : List Role)
    (ids runeIds : Nat → String) (picks : Nat → Nat) :
    (startRoster selectedRole botRoles ids runeIds picks).map Player.id =
      (List.range (botRoles.length + 1)).map ids := by
  have h1 : (startRoster selectedRole botRoles ids runeIds picks).map Player.id =
      ids 0 :: (mkBots ids runeIds picks botRoles 0).map Player.id := rfl
  rw [h1, mkBots_map_id, List.range_succ_eq_map, List.map_cons, List.map_map]
  simp only [List.cons.injEq]
  refine ⟨trivial, ?_⟩
  apply List.map_congr_left
  intro a _
  simp only [Function.comp_apply]
  congr 1
  omega

/-- Claim C5 counterexample: when the user chooses Seer, the created roster
(with the identity shuffle) contains two Seers and three Villagers — not
the claimed predetermined multiset of exactly 1 Seer, 1 Doctor,
2 Werewolves and 4 Villagers — because the pool appends the chosen role to
a fixed seven-role bot pool instead of swapping it in. -/
theorem startRoster_composition_counterexample :
    ((startRoster Role.SEER (rolesPool Role.SEER).tail
        (fun n => toString n) (fun n => toString n) (fun _ => 0)).filter
      (fun p => p.role == Role.SEER)).length = 2 ∧
    ¬ (((startRoster Role.SEER (rolesPool Role.SEER).tail
        (fun n => toString n) (fun n => toString n) (fun _ => 0)).filter
      (fun p => p.role == Role.SEER)).length = 1) := by
  constructor <;> decide

/-- Claim C5 as amended: the roster created by startGame consists of the
user's chosen role plus the fixed bot multiset of 1 Seer, 1 Doctor,
2 Werewolves and 3 Villagers (so its role multiset is the predetermined
1 Seer / 1 Doctor / 2 Werewolves / 4 Villagers exactly when the chosen
role is Villager); the bot roles are a random permutation of that fixed
list, the human sits in the first slot of the pool before the final
shuffle, ids drawn from an injective uuid supply are pairwise distinct,
and every participant has exactly one rune with currentCooldown 0. -/
theorem startRoster_composition_amended (selectedRole : Role)
    (botRoles : List Role) (roster : List Player)
    (ids runeIds : Nat → String) (picks : Nat → Nat)
    (hbot : botRoles.Perm (rolesPool selectedRole).tail)
    (hperm : roster.Perm (startRoster selectedRole botRoles ids runeIds picks))
    (hinj : ∀ i, i ≤ botRoles.length → ∀ j, j ≤ botRoles.length →
      ids i = ids j → i = j) :
    (roster.map Player.role).Perm (rolesPool selectedRole) ∧
    ((roster.map Player.role).Perm
        [Role.SEER, Role.DOCTOR, Role.WEREWOLF, Role.WEREWOLF,
         Role.VILLAGER, Role.VILLAGER, Role.VILLAGER, Role.VILLAGER] ↔
      selectedRole = Role.VILLAGER) ∧
    (roster.map Player.id).Nodup ∧
    roster.length = 8 ∧
    (∀ p ∈ roster, p.runes.length = 1 ∧ ∀ r ∈ p.runes, r.currentCooldown = 0) := by
  have hroles : (startRoster selectedRole botRoles ids runeIds picks).map
      Player.role = selectedRole :: botRoles := by
    have h1 : (startRoster selectedRole botRoles ids runeIds picks).map
        Player.role =
        selectedRole :: (mkBots ids runeIds picks botRoles 0).map Player.role := rfl
    rw [h1, mkBots_map_role]
  have hpool : (roster.map Player.role).Perm (rolesPool selectedRole) := by
    refine ((hperm.map Player.role).trans ?_)
    rw [hroles]
    exact hbot.cons selectedRole
  refine ⟨hpool, ?_, ?_, ?_, ?_⟩
  · have key : ((rolesPool selectedRole).Perm
        [Role.SEER, Role.DOCTOR, Role.WEREWOLF, Role.WEREWOLF,
         Role.VILLAGER, Role.VILLAGER, Role.VILLAGER, Role.VILLAGER]) ↔
        selectedRole = Role.VILLAGER := by
      cases selectedRole <;> decide
    exact ⟨fun h => key.mp (hpool.symm.trans h),
           fun h => hpool.trans (key.mpr h)⟩
  · rw [List.Perm.nodup_iff (hperm.map Player.id)]
    rw [startRoster_map_id]
    apply List.Nodup.map_on
    · intro x hx y hy hxy
      exact hinj x (Nat.lt_succ_iff.mp (List.mem_range.mp hx)) y
        (Nat.lt_succ_iff.mp (List.mem_range.mp hy)) hxy
    · exact List.nodup_range _
  · have hlen7 : botRoles.length = 7 := by
      rw [hbot.length_eq]
      rfl
    have hstart : (startRoster selectedRole botRoles ids runeIds picks).length
        = botRoles.length + 1 := by
      have := congrArg List.length hroles
      simpa using this
    rw [hperm.length_eq, hstart, hlen7]
  · intro p hp
    have hp2 : p ∈ startRoster selectedRole botRoles ids runeIds picks :=
      hperm.mem_iff.mp hp
    rcases List.mem_cons.mp hp2 with h1 | h2
    · constructor
      · rw [h1]; rfl
      · intro r hr
        rw [h1] at hr
        simp only [List.mem_singleton] at hr
        rw [hr, getRandomRune_ready]
    · rcases mkBots_runes ids runeIds picks botRoles 0 p h2 with ⟨n, s, hrs⟩
      constructor
      · rw [hrs]; rfl
      · intro r hr
        rw [hrs] at hr
        simp only [List.mem_singleton] at hr
        rw [hr, getRandomRune_ready]

/-- Witness for the amended C5: the concrete Villager start with the
identity shuffles and a concrete injective id supply. -/
theorem startRoster_composition_amended_witness :
    ((startRoster Role.VILLAGER (rolesPool Role.VILLAGER).tail
        (fun n => toString n) (fun n => toString n) (fun _ => 0)).map
      Player.id).Nodup ∧
    (startRoster Role.VILLAGER (rolesPool Role.VILLAGER).tail
        (fun n => toString n) (fun n => toString n) (fun _ => 0)).length = 8 := by
  have h := startRoster_composition_amended Role.VILLAGER
    (rolesPool Role.VILLAGER).tail
    (startRoster Role.VILLAGER (rolesPool Role.VILLAGER).tail
      (fun n => toString n) (fun n => toString n) (fun _ => 0))
    (fun n => toString n) (fun n => toString n) (fun _ => 0)
    (List.Perm.refl _) (List.Perm.refl _) (by decide)
  refine ⟨?_, h.2.2.2.1⟩
  have := h.2.2.1
  simpa using this

/-- Helper: no tally entry reaches a count above the maximum. -/
theorem filterAbove_nil :
    ∀ (entries : List (String × Nat)) (c : Nat), maxCount entries < c →
      entries.filter (fun e => e.2 == c) = [] := by
  intro entries c
  induction entries with
  | nil => intro _; rfl
  | cons e r ih =>
      intro h
      have h2 : max e.2 (maxCount r) < c := h
      rw [Nat.max_lt] at h2
      rw [List.filter_cons]
      have hne : (e.2 == c) = false := by
        rw [beq_eq_false_iff_ne]
        omega
      rw [hne]
      simp only [Bool.false_eq_true, if_false]
      exact ih h2.2

/-- Helper: a nonempty tally attains its maximum count. -/
theorem maxCount_attained :
    ∀ entries : List (String × Nat), entries ≠ [] →
      ∃ x ∈ entries, x.2 = maxCount entries := by
  intro entries
  induction entries with
  | nil => intro h; exact absurd rfl h
  | cons e r ih =>
      intro _
      have hM : maxCount (e :: r) = max e.2 (maxCount r) := rfl
      by_cases hr : r = []
      · subst hr
        refine ⟨e, List.mem_cons_self e [], ?_⟩
        rw [hM]
        simp [maxCount]
      · by_cases hle : e.2 ≤ maxCount r
        · rcases ih hr with ⟨x, hx, hxe⟩
          refine ⟨x, List.mem_cons_of_mem e hx, ?_⟩
          rw [hM, Nat.max_eq_right hle, hxe]
        · refine ⟨e, List.mem_cons_self e r, ?_⟩
          rw [hM, Nat.max_eq_left (Nat.le_of_not_le hle)]

/-- Helper: the maximum count is invariant under reordering of the tally. -/
theorem maxCount_perm {l₁ l₂ : List (String × Nat)} (h : l₁.Perm l₂) :
    maxCount l₁ = maxCount l₂ := by
  induction h with
  | nil => rfl
  | cons x _ ih => simp only [maxCount, ih]
  | swap x y l =>
      show max y.2 (max x.2 (maxCount l)) = max x.2 (max y.2 (maxCount l))
      rw [Nat.max_left_comm]
  | trans _ _ ih1 ih2 => exact ih1.trans ih2

/-- Helper: closed form of the source's elimination fold from any
accumulator: an empty tail or a maximum below the running max keeps the
accumulator, a maximum equal to the running max clears the leader, and a
larger maximum yields its unique holder. -/
theorem voteFold_go :
    ∀ (entries : List (String × Nat)) (o : Option String) (m : Nat),
      entries.foldl voteFoldStep (o, m) =
        if entries = [] then (o, m)
        else if maxCount entries < m then (o, m)
        else if maxCount entries = m then (none, m)
        else (uniqueMaxHolder entries, maxCount entries) := by
  intro entries
  induction entries with
  | nil => intro o m; simp
  | cons e r ih =>
      intro o m
      have hM : maxCount (e :: r) = max e.2 (maxCount r) := rfl
      rw [List.foldl_cons]
      rw [if_neg (List.cons_ne_nil e r)]
      rcases Nat.lt_trichotomy m e.2 with hlt | heq | hgt
      · -- the head strictly exceeds the running max: it takes the lead
        have hstep : voteFoldStep (o, m) e = (some e.1, e.2) := by
          unfold voteFoldStep
          rw [if_pos hlt]
        rw [hstep, ih (some e.1) e.2]
        by_cases hr : r = []
        · subst hr
          rw [if_pos rfl]
          have hMe : maxCount [e] = e.2 := by simp [maxCount]
          rw [if_neg (by omega : ¬ maxCount [e] < m),
            if_neg (by omega : ¬ maxCount [e] = m)]
          unfold uniqueMaxHolder
          rw [hMe]
          simp [List.filter_cons]
        · rw [if_neg hr]
          rcases Nat.lt_trichotomy (maxCount r) e.2 with h1 | h2 | h3
          · -- tail max below the head count: head is the unique holder
            rw [if_pos h1]
            have hMax : maxCount (e :: r) = e.2 := by
              rw [hM]
              omega
            rw [if_neg (by omega : ¬ maxCount (e :: r) < m),
              if_neg (by omega : ¬ maxCount (e :: r) = m)]
            unfold uniqueMaxHolder
            rw [hMax, List.filter_cons]
            have he : (e.2 == e.2) = true := by simp
            rw [he]
            simp only [if_true]
            rw [filterAbove_nil r e.2 h1]
          · -- tail max equals the head count: at least two holders
            rw [if_neg (by omega : ¬ maxCount r < e.2), if_pos h2]
            have hMax : maxCount (e :: r) = e.2 := by
              rw [hM]
              omega
            rw [if_neg (by omega : ¬ maxCount (e :: r) < m),
              if_neg (by omega : ¬ maxCount (e :: r) = m)]
            rcases maxCount_attained r hr with ⟨x, hx, hxe⟩
            unfold uniqueMaxHolder
            rw [hMax, List.filter_cons]
            have he : (e.2 == e.2) = true := by simp
            rw [he]
            simp only [if_true]
            have hfne : r.filter (fun q => q.2 == e.2) ≠ [] := by
              intro hnil
              have hxf : x ∈ r.filter (fun q => q.2 == e.2) := by
                rw [List.mem_filter]
                refine ⟨hx, ?_⟩
                rw [beq_iff_eq]
                omega
              rw [hnil] at hxf
              cases hxf
            rcases hf : r.filter (fun q => q.2 == e.2) with _ | ⟨y, t⟩
            · exact absurd hf hfne
            · rw [hf]
          · -- tail max above the head count: the tail decides
            rw [if_neg (by omega : ¬ maxCount r < e.2),
              if_neg (by omega : ¬ maxCount r = e.2)]
            have hMax : maxCount (e :: r) = maxCount r := by
              rw [hM, Nat.max_eq_right (Nat.le_of_lt h3)]
            rw [if_neg (by omega : ¬ maxCount (e :: r) < m),
              if_neg (by omega : ¬ maxCount (e :: r) = m)]
            unfold uniqueMaxHolder
            rw [hMax, List.filter_cons]
            have he : (e.2 == maxCount r) = false := by
              rw [beq_eq_false_iff_ne]
              omega
            rw [he]
            simp only [Bool.false_eq_true, if_false]
      · -- the head ties the running max: the leader is cleared
        have hstep : voteFoldStep (o, m) e = (none, m) := by
          unfold voteFoldStep
          rw [if_neg (by omega : ¬ (o, m).2 < e.2),
            if_pos (heq.symm : e.2 = (o, m).2)]
        rw [hstep, ih none m]
        by_cases hr : r = []
        · subst hr
          rw [if_pos rfl]
          have hMax : maxCount [e] = m := by simp [maxCount]; omega
          rw [if_neg (by omega : ¬ maxCount [e] < m), if_pos hMax]
        · rw [if_neg hr]
          rcases Nat.lt_trichotomy (maxCount r) m with h1 | h2 | h3
          · rw [if_pos h1]
            have hMax : maxCount (e :: r) = m := by
              rw [hM]
              omega
            rw [if_neg (by omega : ¬ maxCount (e :: r) < m), if_pos hMax]
          · rw [if_neg (by omega : ¬ maxCount r < m), if_pos h2]
            have hMax : maxCount (e :: r) = m := by
              rw [hM]
              omega
            rw [if_neg (by omega : ¬ maxCount (e :: r) < m), if_pos hMax]
          · rw [if_neg (by omega : ¬ maxCount r < m),
              if_neg (by omega : ¬ maxCount r = m)]
            have hMax : maxCount (e :: r) = maxCount r := by
              rw [hM]
              omega
            rw [if_neg (by omega : ¬ maxCount (e :: r) < m),
              if_neg (by omega : ¬ maxCount (e :: r) = m), hMax]
            unfold uniqueMaxHolder
            rw [hMax, List.filter_cons]
            have he : (e.2 == maxCount r) = false := by
              rw [beq_eq_false_iff_ne]
              omega
            rw [he]
            simp only [Bool.false_eq_true, if_false]
      · -- the head is below the running max: nothing changes
        have hstep : voteFoldStep (o, m) e = (o, m) := by
          unfold voteFoldStep
          rw [if_neg (by omega : ¬ (o, m).2 < e.2),
            if_neg (by omega : ¬ e.2 = (o, m).2)]
        rw [hstep, ih o m]
        by_cases hr : r = []
        · subst hr
          rw [if_pos rfl]
          have hMax : maxCount [e] = e.2 := by simp [maxCount]
          rw [if_pos (by omega : maxCount [e] < m)]
        · rw [if_neg hr]
          rcases Nat.lt_trichotomy (maxCount r) m with h1 | h2 | h3
          · rw [if_pos h1]
            rw [if_pos (by rw [hM]; omega : maxCount (e :: r) < m)]
          · rw [if_neg (by omega : ¬ maxCount r < m), if_pos h2]
            have hMax : maxCount (e :: r) = m := by
              rw [hM]
              omega
            rw [if_neg (by omega : ¬ maxCount (e :: r) < m), if_pos hMax]
          · rw [if_neg (by omega : ¬ maxCount r < m),
              if_neg (by omega : ¬ maxCount r = m)]
            have hMax : maxCount (e :: r) = maxCount r := by
              rw [hM]
              omega
            rw [if_neg (by omega : ¬ maxCount (e :: r) < m),
              if_neg (by omega : ¬ maxCount (e :: r) = m), hMax]
            unfold uniqueMaxHolder
            rw [hMax, List.filter_cons]
            have he : (e.2 == maxCount r) = false := by
              rw [beq_eq_false_iff_ne]
              omega
            rw [he]
            simp only [Bool.false_eq_true, if_false]

/-- Helper: on positive counts the source's fold computes exactly the
unique-maximum holder of the spec. -/
theorem pickEliminated_eq_uniqueMax (entries : List (String × Nat))
    (hpos : ∀ e ∈ entries, 0 < e.2) :
    pickEliminated entries = uniqueMaxHolder entries := by
  unfold pickEliminated
  rw [voteFold_go entries none 0]
  by_cases hnil : entries = []
  · subst hnil
    rfl
  · rcases maxCount_attained entries hnil with ⟨x, hx, hxe⟩
    have hposx := hpos x hx
    rw [if_neg hnil, if_neg (by omega : ¬ maxCount entries < 0),
      if_neg (by omega : ¬ maxCount entries = 0)]

/-- Helper: a tally with a positive unique maximum holder elects it. -/
theorem pickEliminated_unique (entries : List (String × Nat)) (k : String)
    (c : Nat) (hpos : ∀ e ∈ entries, 0 < e.2)
    (hnodup : (entries.map Prod.fst).Nodup)
    (hmem : (k, c) ∈ entries) (hc : c = maxCount entries)
    (huniq : ∀ e ∈ entries, e.2 = maxCount entries → e.1 = k) :
    pickEliminated entries = some k := by
  rw [pickEliminated_eq_uniqueMax entries hpos]
  unfold uniqueMaxHolder
  have hkf : (k, c) ∈ entries.filter (fun e => e.2 == maxCount entries) := by
    rw [List.mem_filter]
    refine ⟨hmem, ?_⟩
    rw [beq_iff_eq]
    exact hc
  have hndf : ((entries.filter (fun e => e.2 == maxCount entries)).map
      Prod.fst).Nodup :=
    hnodup.sublist ((List.filter_sublist entries).map Prod.fst)
  rcases hfe : entries.filter (fun e => e.2 == maxCount entries) with _ | ⟨x, t⟩
  · rw [hfe] at hkf
    cases hkf
  · have hxmem : x ∈ entries.filter (fun e => e.2 == maxCount entries) := by
      rw [hfe]
      exact List.mem_cons_self x t
    rw [List.mem_filter] at hxmem
    have hx1 : x.1 = k := by
      apply huniq x hxmem.1
      have := hxmem.2
      rwa [beq_iff_eq] at this
    cases t with
    | nil =>
        rw [hfe]
        show some x.1 = some k
        rw [hx1]
    | cons y t2 =>
        exfalso
        have hymem : y ∈ entries.filter (fun e => e.2 == maxCount entries) := by
          rw [hfe]
          exact List.mem_cons_of_mem x (List.mem_cons_self y t2)
        rw [List.mem_filter] at hymem
        have hy1 : y.1 = k := by
          apply huniq y hymem.1
          have := hymem.2
          rwa [beq_iff_eq] at this
        rw [hfe] at hndf
        simp only [List.map_cons, List.nodup_cons] at hndf
        exact hndf.1 (by
          rw [hx1, ← hy1]
          exact List.mem_cons_self y.1 (List.map Prod.fst t2))

/-- Helper: a tally with two distinct maximum holders elects no one. -/
theorem pickEliminated_tie (entries : List (String × Nat))
    (p q : String × Nat) (hpos : ∀ e ∈ entries, 0 < e.2)
    (hp : p ∈ entries) (hq : q ∈ entries) (hne : p.1 ≠ q.1)
    (hpm : p.2 = maxCount entries) (hqm : q.2 = maxCount entries) :
    pickEliminated entries = none := by
  rw [pickEliminated_eq_uniqueMax entries hpos]
  unfold uniqueMaxHolder
  have hpf : p ∈ entries.filter (fun e => e.2 == maxCount entries) := by
    rw [List.mem_filter]
    exact ⟨hp, by rw [beq_iff_eq]; exact hpm⟩
  have hqf : q ∈ entries.filter (fun e => e.2 == maxCount entries) := by
    rw [List.mem_filter]
    exact ⟨hq, by rw [beq_iff_eq]; exact hqm⟩
  rcases hfe : entries.filter (fun e => e.2 == maxCount entries) with _ | ⟨x, t⟩
  · rw [hfe] at hpf
    cases hpf
  · cases t with
    | nil =>
        exfalso
        rw [hfe] at hpf hqf
        simp only [List.mem_singleton] at hpf hqf
        exact hne (congrArg Prod.fst (hpf.trans hqf.symm))
    | cons y t2 => rw [hfe]

/-- Helper: populating the vote accumulators changes no id or aliveness. -/
theorem votePopulated_aliveView (players : List Player)
    (counts : List (String × Nat)) :
    (votePopulated players counts).map aliveView = players.map aliveView := by
  unfold votePopulated
  rw [List.map_map]
  apply List.map_congr_left
  intro p _
  rfl

/-- Helper: resetting the vote accumulators changes no id or aliveness. -/
theorem voteReset_aliveView (players : List Player) :
    (voteReset players).map aliveView = players.map aliveView := by
  unfold voteReset
  rw [List.map_map]
  apply List.map_congr_left
  intro p _
  rfl

/-- Helper: with pairwise-distinct ids, killing the entry carrying id k
clears exactly that entry's aliveness. -/
theorem killFirst_aliveView :
    ∀ (ps : List Player) (k : String), (ps.map Player.id).Nodup →
      (killFirst ps k).map aliveView =
        ps.map (fun p => (p.id, p.isAlive && !(p.id == k))) := by
  intro ps k
  induction ps with
  | nil => intro _; rfl
  | cons p rest ih =>
      intro hnd
      rw [List.map_cons] at hnd
      have hnd2 := List.nodup_cons.mp hnd
      by_cases hid : (p.id == k) = true
      · have hpk : p.id = k := by rwa [beq_iff_eq] at hid
        simp only [killFirst, hid, if_true, List.map_cons, List.cons.injEq]
        constructor
        · simp [aliveView, hid]
        · apply List.map_congr_left
          intro q hq
          have hqk : (q.id == k) = false := by
            rw [beq_eq_false_iff_ne]
            intro hcontra
            exact hnd2.1 (by
              rw [hpk, ← hcontra]
              exact List.mem_map_of_mem Player.id hq)
          simp [aliveView, hqk]
      · simp only [killFirst, hid, Bool.false_eq_true, if_false,
          List.map_cons, List.cons.injEq]
        constructor
        · simp [aliveView, hid]
        · exact ih hnd2.2

/-- Helper: populating accumulators keeps the id list. -/
theorem votePopulated_map_id (players : List Player)
    (counts : List (String × Nat)) :
    (votePopulated players counts).map Player.id = players.map Player.id := by
  unfold votePopulated
  rw [List.map_map]
  apply List.map_congr_left
  intro p _
  rfl

/-- Claim C3: for every tally of votes (positive counts, distinct target
keys), a unique maximum holder — and only it — is eliminated, while two or
more tied maxima eliminate no one; in particular votes A:2,B:2 eliminate no
one and A:3,B:1 eliminate A, in every enumeration order; and the day
resolver clears exactly the elected target's aliveness (no one on a tie). -/
theorem confirmVote_tally_spec :
    (∀ (entries : List (String × Nat)) (k : String) (c : Nat),
      (∀ e ∈ entries, 0 < e.2) → (entries.map Prod.fst).Nodup →
      (k, c) ∈ entries → c = maxCount entries →
      (∀ e ∈ entries, e.2 = maxCount entries → e.1 = k) →
      pickEliminated entries = some k) ∧
    (∀ (entries : List (String × Nat)) (p q : String × Nat),
      (∀ e ∈ entries, 0 < e.2) → p ∈ entries → q ∈ entries → p.1 ≠ q.1 →
      p.2 = maxCount entries → q.2 = maxCount entries →
      pickEliminated entries = none) ∧
    (∀ l : List (String × Nat), l.Perm [("A", 2), ("B", 2)] →
      pickEliminated l = none) ∧
    (∀ l : List (String × Nat), l.Perm [("A", 3), ("B", 1)] →
      pickEliminated l = some "A") ∧
    (∀ (st : GameState) (ba : List BotDayAction) (tgt : Option String),
      pickEliminated (dayTally st.players st.userPlayerId ba tgt) = none →
      (votedPlayers st ba tgt).map aliveView = st.players.map aliveView) ∧
    (∀ (st : GameState) (ba : List BotDayAction) (tgt : Option String)
      (k : String),
      (st.players.map Player.id).Nodup →
      pickEliminated (dayTally st.players st.userPlayerId ba tgt) = some k →
      (votedPlayers st ba tgt).map aliveView =
        st.players.map (fun p => (p.id, p.isAlive && !(p.id == k)))) ∧
    (∀ (st : GameState) (ba : List BotDayAction) (tgt : Option String),
      ¬ (tgt = none ∧ userIsAlive st = true) →
      (confirmVote st ba tgt).players.map aliveView =
        (votedPlayers st ba tgt).map aliveView) := by
  refine ⟨pickEliminated_unique, pickEliminated_tie, ?_, ?_, ?_, ?_, ?_⟩
  · intro l h
    have hmc : maxCount l = 2 := by
      rw [maxCount_perm h]
      rfl
    apply pickEliminated_tie l ("A", 2) ("B", 2)
    · intro e he
      have hmem := h.mem_iff.mp he
      rcases List.mem_cons.mp hmem with rfl | h2
      · decide
      · rcases List.mem_singleton.mp h2 with rfl
        decide
    · exact h.mem_iff.mpr (by decide)
    · exact h.mem_iff.mpr (by decide)
    · decide
    · rw [hmc]
    · rw [hmc]
  · intro l h
    have hmc : maxCount l = 3 := by
      rw [maxCount_perm h]
      rfl
    apply pickEliminated_unique l "A" 3
    · intro e he
      have hmem := h.mem_iff.mp he
      rcases List.mem_cons.mp hmem with rfl | h2
      · decide
      · rcases List.mem_singleton.mp h2 with rfl
        decide
    · rw [List.Perm.nodup_iff (h.map Prod.fst)]
      decide
    · exact h.mem_iff.mpr (by decide)
    · rw [hmc]
    · intro e he hemax
      have hmem := h.mem_iff.mp he
      rw [hmc] at hemax
      rcases List.mem_cons.mp hmem with rfl | h2
      · rfl
      · rcases List.mem_singleton.mp h2 with rfl
        exact absurd hemax (by decide)
  · intro st ba tgt hnone
    unfold votedPlayers voteApplied
    rw [hnone]
    exact votePopulated_aliveView _ _
  · intro st ba tgt k hnd hsome
    unfold votedPlayers voteApplied
    rw [hsome]
    rw [killFirst_aliveView _ k (by rw [votePopulated_map_id]; exact hnd)]
    unfold votePopulated
    rw [List.map_map]
    apply List.map_congr_left
    intro p _
    rfl
  · intro st ba tgt hguard
    unfold confirmVote
    have hg : ¬ ((decide (tgt = none) && userIsAlive st) = true) := by
      simp only [Bool.and_eq_true, decide_eq_true_eq]
      intro hcontra
      exact hguard ⟨hcontra.1, hcontra.2⟩
    rw [if_neg hg]
    cases hw : checkWinCondition (voteReset (votedPlayers st ba tgt)) with
    | none => exact voteReset_aliveView _
    | some team => rfl

/-- Witness for C3 at the claim's own concrete tallies and a concrete
resolved vote. -/
theorem confirmVote_tally_spec_witness :
    pickEliminated [("A", 2), ("B", 2)] = none ∧
    pickEliminated [("A", 3), ("B", 1)] = some "A" ∧
    (confirmVote c7State [] (some "w")).players.map aliveView =
      (votedPlayers c7State [] (some "w")).map aliveView :=
  ⟨confirmVote_tally_spec.2.2.1 _ (List.Perm.refl _),
   confirmVote_tally_spec.2.2.2.1 _ (List.Perm.refl _),
   confirmVote_tally_spec.2.2.2.2.2.2 c7State [] (some "w") (by decide)⟩

/-- Helper: death application leaves every field but the roster as the
win-check dictates; the roster is exactly nightDeaths. -/
theorem processNightResults_players (st : GameState) :
    (processNightResults st).players = nightDeaths st := by
  unfold processNightResults
  cases checkWinCondition (nightDeaths st) with
  | some team => rfl
  | none => rfl

/-- Helper: the rune-consumption pass changes no id or aliveness. -/
theorem applyRuneConsumption_aliveView (players : List Player)
    (userId : String) (usedRune : Option String) (ba : BotNightAction) :
    (applyRuneConsumption players userId usedRune ba).map aliveView =
      players.map aliveView := by
  unfold applyRuneConsumption
  rw [List.map_map]
  apply List.map_congr_left
  intro p _
  by_cases hc : (p.id == userId && usedRune.isSome) = true
  · simp only [Function.comp_apply, hc, if_true]
    rfl
  · simp only [Function.comp_apply, hc, Bool.false_eq_true, if_false]
    cases ba.runeActions.find? (fun b => b.playerId == p.id) with
    | some bact => rfl
    | none => rfl

/-- Claim C2: night resolution records the doctor target as the primary
kill target exactly when that id is among the protect proposals; at the
day-intro transition a null target or a doctor-matched target kills no one,
and otherwise exactly the recorded target's aliveness is cleared; and
neither the night resolver itself nor the night-intro tick ever changes any
participant's aliveness — death application is the only night-kill site. -/
theorem nightKill_application :
    (∀ (st : GameState) (ba : BotNightAction) (atype : ActionType)
      (rid tgt : Option String) (st' : GameState) (user : Player),
      findUser st = some user →
      confirmNightAction st ba atype rid tgt = some st' →
      ¬ (tgt = none ∧ user.isAlive = true) →
      (∀ d : String,
        st'.targets.doctor = some d ↔
          st'.targets.werewolf = some d ∧
            d ∈ nightSaves st.players ba user atype rid tgt)) ∧
    (∀ st : GameState, st.targets.werewolf = none →
      (processNightResults st).players = st.players) ∧
    (∀ (st : GameState) (k : String), st.targets.werewolf = some k →
      st.targets.doctor = some k →
      (processNightResults st).players = st.players) ∧
    (∀ (st : GameState) (k : String),
      (st.players.map Player.id).Nodup →
      st.targets.werewolf = some k → ¬ st.targets.doctor = some k →
      (processNightResults st).players.map aliveView =
        st.players.map (fun p => (p.id, p.isAlive && !(p.id == k)))) ∧
    (∀ (st : GameState) (ba : BotNightAction) (atype : ActionType)
      (rid tgt : Option String) (st' : GameState),
      confirmNightAction st ba atype rid tgt = some st' →
      st'.players.map aliveView = st.players.map aliveView) ∧
    (∀ st : GameState,
      (nightIntro st).players.map aliveView = st.players.map aliveView) := by
  refine ⟨?_, ?_, ?_, ?_, ?_, ?_⟩
  · intro st ba atype rid tgt st' user hu h hguard d
    have hua : userIsAlive st = user.isAlive := by
      unfold userIsAlive
      rw [hu]
    have hg : ¬ ((decide (tgt = none) && userIsAlive st) = true) := by
      simp only [Bool.and_eq_true, decide_eq_true_eq, hua]
      intro hcontra
      exact hguard ⟨hcontra.1, hcontra.2⟩
    unfold confirmNightAction at h
    rw [if_neg hg] at h
    rw [hu] at h
    simp only [Option.some.injEq] at h
    subst h
    show (if (nightSaves st.players ba user atype rid tgt).contains
        (((nightKills ba user atype tgt).head?).getD "") = true then
        (nightKills ba user atype tgt).head? else none) = some d ↔ _
    cases hP : (nightKills ba user atype tgt).head? with
    | none =>
        constructor
        · intro hcontra
          by_cases hc : ((nightSaves st.players ba user atype rid tgt).contains
              ((Option.getD none "")) = true)
          · rw [if_pos hc] at hcontra
            cases hcontra
          · rw [if_neg hc] at hcontra
            cases hcontra
        · intro ⟨h1, _⟩
          have h2 : (none : Option String) = some d := h1
          cases h2
    | some t =>
        by_cases hc : ((nightSaves st.players ba user atype rid tgt).contains
            ((Option.getD (some t) "")) = true)
        · rw [if_pos hc]
          constructor
          · intro h1
            refine ⟨h1, ?_⟩
            have ht : t = d := by
              injection h1
            rw [← ht]
            rw [← List.elem_iff]
            exact hc
          · intro ⟨h1, _⟩
            exact h1
        · rw [if_neg hc]
          constructor
          · intro hcontra
            cases hcontra
          · intro ⟨h1, h2⟩
            exfalso
            have ht : t = d := by
              injection h1
            apply hc
            rw [ht, List.elem_iff]
            exact h2
  · intro st hww
    rw [processNightResults_players]
    unfold nightDeaths
    rw [hww]
  · intro st k hww hdoc
    rw [processNightResults_players]
    unfold nightDeaths
    rw [hww]
    show (if (st.targets.doctor == some k) = true then st.players
      else killFirst st.players k) = st.players
    rw [if_pos (by rw [beq_iff_eq]; exact hdoc)]
  · intro st k hnd hww hdoc
    rw [processNightResults_players]
    unfold nightDeaths
    rw [hww]
    show (if (st.targets.doctor == some k) = true then st.players
      else killFirst st.players k).map aliveView = _
    rw [if_neg (by rw [beq_iff_eq]; exact hdoc)]
    exact killFirst_aliveView st.players k hnd
  · intro st ba atype rid tgt st' h
    unfold confirmNightAction at h
    by_cases hg : (decide (tgt = none) && userIsAlive st) = true
    · rw [if_pos hg] at h
      simp only [Option.some.injEq] at h
      rw [← h]
    · rw [if_neg hg] at h
      cases hu : findUser st with
      | none => rw [hu] at h; cases h
      | some user =>
          rw [hu] at h
          simp only [Option.some.injEq] at h
          rw [← h]
          exact applyRuneConsumption_aliveView _ _ _ _
  · intro st
    show (tickRunes st.players).map aliveView = st.players.map aliveView
    unfold tickRunes
    rw [List.map_map]
    apply List.map_congr_left
    intro p _
    rfl

/-- Witness for C2: a concrete night resolution records the doctor target
because the kill target is protected; a concrete unprotected target dies
at day intro and only it; the night-intro tick kills no one. -/
theorem nightKill_application_witness :
    ((confirmNightAction c2NightState c2Oracle ActionType.ROLE none
        (some "w")).getD initialState).targets.doctor = some "w" ∧
    (processNightResults c2State).players.map aliveView =
      c2State.players.map (fun p => (p.id, p.isAlive && !(p.id == "v"))) ∧
    (nightIntro c2State).players.map aliveView =
      c2State.players.map aliveView := by
  refine ⟨?_, ?_, ?_⟩
  · exact (nightKill_application.1 c2NightState c2Oracle ActionType.ROLE none
      (some "w")
      ((confirmNightAction c2NightState c2Oracle ActionType.ROLE none
        (some "w")).getD initialState)
      (samplePlayer "u" Role.DOCTOR true [])
      (by decide) (by decide) (by decide) "w").mpr ⟨by decide, by decide⟩
  · exact nightKill_application.2.2.2.1 c2State "v" (by decide) (by decide)
      (by decide)
  · exact nightKill_application.2.2.2.2.2 c2State

/-- Helper: killing an entry leaves any projection that ignores aliveness
unchanged across the roster. -/
theorem killFirst_map_eq {α : Type} (f : Player → α)
    (hf : ∀ p : Player, f { p with isAlive := false } = f p) :
    ∀ (ps : List Player) (k : String), (killFirst ps k).map f = ps.map f := by
  intro ps k
  induction ps with
  | nil => rfl
  | cons p rest ih =>
      by_cases hid : (p.id == k) = true
      · simp only [killFirst, hid, if_true, List.map_cons]
        rw [hf p]
      · simp only [killFirst, hid, Bool.false_eq_true, if_false,
          List.map_cons]
        rw [ih]

/-- Claim C7 counterexample: a vote that eliminates the last werewolf ends
the game, and the GAME_OVER session still carries the tally in
votesAgainst — the reset is dropped on the winning path, so the claim that
the accumulators are always 0 before the next phase begins is false. -/
theorem votesAgainst_reset_counterexample :
    (confirmVote c7State [] (some "w")).phase = Phase.GAME_OVER ∧
    (confirmVote c7State [] (some "w")).players.map Player.votesAgainst =
      [0, 1] ∧
    ¬ ((confirmVote c7State [] (some "w")).players.map Player.votesAgainst =
      [0, 0]) := by
  refine ⟨?_, ?_, ?_⟩ <;> decide

/-- Claim C7 as amended: when the day vote resolves without a winner, every
votesAgainst accumulator is 0 before NIGHT_INTRO begins; when a winner is
detected, the session enters GAME_OVER with votesAgainst still holding the
tally (the reset roster is discarded on that path); in both cases the day
resolver changes no participant field other than isAlive and
votesAgainst. -/
theorem votesAgainst_reset_amended (st : GameState)
    (ba : List BotDayAction) (tgt : Option String)
    (hguard : ¬ (tgt = none ∧ userIsAlive st = true)) :
    (checkWinCondition (voteReset (votedPlayers st ba tgt)) = none →
      (confirmVote st ba tgt).phase = Phase.NIGHT_INTRO ∧
      ∀ p ∈ (confirmVote st ba tgt).players, p.votesAgainst = 0) ∧
    (∀ team, checkWinCondition (voteReset (votedPlayers st ba tgt)) =
        some team →
      (confirmVote st ba tgt).phase = Phase.GAME_OVER ∧
      (confirmVote st ba tgt).players.map Player.votesAgainst =
        st.players.map (fun p =>
          ((dayTally st.players st.userPlayerId ba tgt).lookup p.id).getD 0)) ∧
    (confirmVote st ba tgt).players.map playerFrame =
      st.players.map playerFrame := by
  have hg : ¬ ((decide (tgt = none) && userIsAlive st) = true) := by
    simp only [Bool.and_eq_true, decide_eq_true_eq]
    intro hcontra
    exact hguard ⟨hcontra.1, hcontra.2⟩
  have hvotes : (votedPlayers st ba tgt).map Player.votesAgainst =
      st.players.map (fun p =>
        ((dayTally st.players st.userPlayerId ba tgt).lookup p.id).getD 0) := by
    unfold votedPlayers voteApplied
    have hpop : (votePopulated st.players
        (dayTally st.players st.userPlayerId ba tgt)).map Player.votesAgainst =
        st.players.map (fun p =>
          ((dayTally st.players st.userPlayerId ba tgt).lookup p.id).getD 0) := by
      unfold votePopulated
      rw [List.map_map]
      apply List.map_congr_left
      intro p _
      rfl
    cases pickEliminated (dayTally st.players st.userPlayerId ba tgt) with
    | some e => rw [killFirst_map_eq Player.votesAgainst (fun p => rfl)]; exact hpop
    | none => exact hpop
  have hframe : (votedPlayers st ba tgt).map playerFrame =
      st.players.map playerFrame := by
    unfold votedPlayers voteApplied
    have hpop : (votePopulated st.players
        (dayTally st.players st.userPlayerId ba tgt)).map playerFrame =
        st.players.map playerFrame := by
      unfold votePopulated
      rw [List.map_map]
      apply List.map_congr_left
      intro p _
      rfl
    cases pickEliminated (dayTally st.players st.userPlayerId ba tgt) with
    | some e => rw [killFirst_map_eq playerFrame (fun p => rfl)]; exact hpop
    | none => exact hpop
  have hresetframe : (voteReset (votedPlayers st ba tgt)).map playerFrame =
      st.players.map playerFrame := by
    rw [← hframe]
    unfold voteReset
    rw [List.map_map]
    apply List.map_congr_left
    intro p _
    rfl
  refine ⟨?_, ?_, ?_⟩
  · intro hwin
    unfold confirmVote
    rw [if_neg hg, hwin]
    refine ⟨rfl, ?_⟩
    intro p hp
    rcases List.mem_map.mp hp with ⟨p0, _, rfl⟩
    rfl
  · intro team hwin
    unfold confirmVote
    rw [if_neg hg, hwin]
    exact ⟨rfl, hvotes⟩
  · unfold confirmVote
    rw [if_neg hg]
    cases hwin : checkWinCondition (voteReset (votedPlayers st ba tgt)) with
    | some team => exact hframe
    | none => exact hresetframe

/-- Witness for the amended C7: the concrete winning vote enters GAME_OVER
carrying the tally, and a concrete non-winning vote resets every
accumulator before NIGHT_INTRO. -/
theorem votesAgainst_reset_amended_witness :
    ((confirmVote c7State [] (some "w")).phase = Phase.GAME_OVER ∧
      (confirmVote c7State [] (some "w")).players.map Player.votesAgainst =
        c7State.players.map (fun p =>
          ((dayTally c7State.players c7State.userPlayerId [] (some "w")).lookup
            p.id).getD 0)) ∧
    ((confirmVote c7bState [] (some "v3")).phase = Phase.NIGHT_INTRO ∧
      ∀ p ∈ (confirmVote c7bState [] (some "v3")).players,
        p.votesAgainst = 0) :=
  ⟨(votesAgainst_reset_amended c7State [] (some "w") (by decide)).2.1
      Team.Villagers (by decide),
   (votesAgainst_reset_amended c7bState [] (some "v3") (by decide)).1
      (by decide)⟩

/-- Helper: lookup after a JS-object assignment. -/
theorem lookup_assocSet :
    ∀ (m : List (String × Role)) (key : String) (v : Role) (p : String),
      (assocSet m key v).lookup p =
        if (p == key) = true then some v else m.lookup p := by
  intro m key v
  induction m with
  | nil =>
      intro p
      by_cases h : (p == key) = true
      · simp [assocSet, List.lookup, h]
      · simp [assocSet, List.lookup, h]
  | cons e rest ih =>
      intro p
      by_cases h1 : (e.1 == key) = true
      · have he : e.1 = key := by rwa [beq_iff_eq] at h1
        simp only [assocSet, h1, if_true]
        by_cases h2 : (p == key) = true
        · simp [List.lookup, h2]
        · have h3 : (p == e.1) = false := by
            rw [beq_eq_false_iff_ne, he]
            simpa using h2
          simp [List.lookup, h2, h3]
      · simp only [assocSet, h1, Bool.false_eq_true, if_false]
        by_cases h2 : (p == e.1) = true
        · have hpe : p = e.1 := by rwa [beq_iff_eq] at h2
          have h3 : (p == key) = false := by
            rw [beq_eq_false_iff_ne]
            intro hcontra
            have h1b : e.1 ≠ key := by simpa using h1
            exact h1b (hpe ▸ hcontra)
          simp [List.lookup, h2, h3]
        · simp only [List.lookup, h2]
          rw [ih p]

/-- Helper: a successful lookup comes from an entry of the map. -/
theorem lookup_mem :
    ∀ (m : List (String × Role)) (p : String) (r : Role),
      m.lookup p = some r → (p, r) ∈ m := by
  intro m
  induction m with
  | nil => intro p r h; cases h
  | cons e rest ih =>
      intro p r h
      by_cases h1 : (p == e.1) = true
      · have hpe : p = e.1 := by rwa [beq_iff_eq] at h1
        have h2 : some e.2 = some r := by
          have hl : (e :: rest).lookup p = some e.2 := by
            show (match p == e.1 with
              | true => some e.2
              | false => rest.lookup p) = some e.2
            rw [h1]
          rw [← hl, h]
        have h3 : e.2 = r := by injection h2
        have hpr : (p, r) = e := by rw [hpe, ← h3]
        rw [hpr]
        exact List.mem_cons_self e rest
      · have hl : (e :: rest).lookup p = rest.lookup p := by
          show (match p == e.1 with
            | true => some e.2
            | false => rest.lookup p) = rest.lookup p
          have h1f : (p == e.1) = false := by
            cases hb : (p == e.1) with
            | true => exact absurd hb h1
            | false => rfl
          rw [h1f]
        rw [hl] at h
        exact List.mem_cons_of_mem e (ih p r h)

/-- Helper: an entry of the map after assignment is the assigned pair or an
original entry. -/
theorem mem_assocSet :
    ∀ (m : List (String × Role)) (key : String) (v : Role)
      (e : String × Role), e ∈ assocSet m key v → e = (key, v) ∨ e ∈ m := by
  intro m key v
  induction m with
  | nil =>
      intro e he
      simp only [assocSet, List.mem_singleton] at he
      exact Or.inl he
  | cons x rest ih =>
      intro e he
      by_cases h1 : (x.1 == key) = true
      · simp only [assocSet, h1, if_true] at he
        rcases List.mem_cons.mp he with h2 | h2
        · exact Or.inl h2
        · exact Or.inr (List.mem_cons_of_mem x h2)
      · simp only [assocSet, h1, Bool.false_eq_true, if_false] at he
        rcases List.mem_cons.mp he with h2 | h2
        · exact Or.inr (by rw [h2]; exact List.mem_cons_self x rest)
        · rcases ih e h2 with h3 | h3
          · exact Or.inl h3
          · exact Or.inr (List.mem_cons_of_mem x h3)

/-- Helper: the reveal pass keeps the knowledge map consistent with the
roster and preserves every previously recorded entry. -/
theorem applyReveals_preserve :
    ∀ (reveals : List String) (players : List Player)
      (know : List (String × Role)),
      knowledgeConsistent players know = true →
      knowledgeConsistent players (applyReveals players know reveals) = true ∧
      (∀ (p : String) (r : Role), know.lookup p = some r →
        (applyReveals players know reveals).lookup p = some r) := by
  intro reveals
  induction reveals with
  | nil => intro players know h; exact ⟨h, fun p r h2 => h2⟩
  | cons tid rest ih =>
      intro players know h
      simp only [applyReveals]
      cases hfind : players.find? (fun p => p.id == tid) with
      | none => exact ih players know h
      | some target =>
          have htid : target.id = tid := by
            have := List.find?_some hfind
            rwa [beq_iff_eq] at this
          have hcons2 : knowledgeConsistent players
              (assocSet know target.id target.role) = true := by
            rw [knowledgeConsistent, List.all_eq_true]
            intro e he
            rcases mem_assocSet know target.id target.role e he with h1 | h1
            · rw [h1]
              show (match players.find? (fun x => x.id == target.id) with
                | some q => q.role == target.role
                | none => true) = true
              rw [htid, hfind]
              simp
            · rw [knowledgeConsistent, List.all_eq_true] at h
              exact h e h1
          have ihr := ih players (assocSet know target.id target.role) hcons2
          refine ⟨ihr.1, ?_⟩
          intro p r hl
          apply ihr.2
          rw [lookup_assocSet]
          by_cases hpk : (p == target.id) = true
          · have hpe : p = target.id := by rwa [beq_iff_eq] at hpk
            rw [if_pos hpk]
            rw [knowledgeConsistent, List.all_eq_true] at h
            have hmem := lookup_mem know p r hl
            have hcons := h (p, r) hmem
            have hcons2b : (match players.find? (fun x => x.id == p) with
                | some q => q.role == r
                | none => true) = true := hcons
            rw [hpe, htid, hfind] at hcons2b
            have hrr : target.role = r := by rwa [beq_iff_eq] at hcons2b
            rw [hrr]
          · rw [if_neg hpk]
            exact hl

/-- Claim C8: within a session the knowledge map grows monotonically — a
night-resolution pass preserves every recorded participant-to-role entry
(given the map is consistent with the roster, which the pass itself
maintains from the empty start map) — and no other transition (death
application, day vote, night intro) nor game start touches the map except
the restart to the empty map. -/
theorem knowledge_monotone :
    (∀ (st : GameState) (ba : BotNightAction) (atype : ActionType)
      (rid tgt : Option String) (st' : GameState),
      confirmNightAction st ba atype rid tgt = some st' →
      knowledgeConsistent st.players st.seerKnowledge = true →
      (∀ (p : String) (r : Role), st.seerKnowledge.lookup p = some r →
        st'.seerKnowledge.lookup p = some r) ∧
      knowledgeConsistent st.players st'.seerKnowledge = true) ∧
    (∀ st : GameState,
      (processNightResults st).seerKnowledge = st.seerKnowledge) ∧
    (∀ (st : GameState) (ba : List BotDayAction) (tgt : Option String),
      (confirmVote st ba tgt).seerKnowledge = st.seerKnowledge) ∧
    (∀ st : GameState, (nightIntro st).seerKnowledge = st.seerKnowledge) ∧
    (∀ (selectedRole : Role) (botRoles : List Role)
      (ids runeIds : Nat → String) (picks : Nat → Nat),
      (startGame selectedRole botRoles ids runeIds picks).seerKnowledge = []) := by
  refine ⟨?_, ?_, ?_, ?_, ?_⟩
  · intro st ba atype rid tgt st' h hcons
    unfold confirmNightAction at h
    by_cases hg : (decide (tgt = none) && userIsAlive st) = true
    · rw [if_pos hg] at h
      simp only [Option.some.injEq] at h
      rw [← h]
      exact ⟨fun p r h2 => h2, hcons⟩
    · rw [if_neg hg] at h
      cases hu : findUser st with
      | none => rw [hu] at h; cases h
      | some user =>
          rw [hu] at h
          simp only [Option.some.injEq] at h
          rw [← h]
          have hpre := applyReveals_preserve
            (nightReveals user atype rid tgt) st.players st.seerKnowledge hcons
          exact ⟨hpre.2, hpre.1⟩
  · intro st
    unfold processNightResults
    cases checkWinCondition (nightDeaths st) with
    | some team => rfl
    | none => rfl
  · intro st ba tgt
    unfold confirmVote
    by_cases hg : (decide (tgt = none) && userIsAlive st) = true
    · rw [if_pos hg]
    · rw [if_neg hg]
      cases checkWinCondition (voteReset (votedPlayers st ba tgt)) with
      | some team => rfl
      | none => rfl
  · intro st
    rfl
  · intro selectedRole botRoles ids runeIds picks
    rfl

/-- Witness for C8: a concrete reveal of a third player keeps the earlier
werewolf revelation intact. -/
theorem knowledge_monotone_witness :
    ((confirmNightAction c8State emptyNightOracle ActionType.ROLE none
        (some "v")).getD initialState).seerKnowledge.lookup "w" =
      some Role.WEREWOLF ∧
    (processNightResults c2State).seerKnowledge = c2State.seerKnowledge :=
  ⟨(knowledge_monotone.1 c8State emptyNightOracle ActionType.ROLE none
      (some "v")
      ((confirmNightAction c8State emptyNightOracle ActionType.ROLE none
        (some "v")).getD initialState)
      (by decide) (by decide)).1 "w" Role.WEREWOLF (by decide),
   knowledge_monotone.2.1 c2State⟩

/-- Helper: killing an id that no roster entry carries changes nothing. -/
theorem killFirst_absent :
    ∀ (ps : List Player) (k : String), (∀ p ∈ ps, p.id ≠ k) →
      killFirst ps k = ps := by
  intro ps k
  induction ps with
  | nil => intro _; rfl
  | cons p rest ih =>
      intro h
      have hid : (p.id == k) = false := by
        rw [beq_eq_false_iff_ne]
        exact h p (List.mem_cons_self p rest)
      simp only [killFirst, hid, Bool.false_eq_true, if_false]
      rw [ih (fun q hq => h q (List.mem_cons_of_mem p hq))]

/-- Helper: reveals of ids absent from the roster leave every lookup
unchanged for that id. -/
theorem applyReveals_lookup_absent :
    ∀ (reveals : List String) (players : List Player)
      (know : List (String × Role)) (p : String),
      players.find? (fun x => x.id == p) = none →
      (applyReveals players know reveals).lookup p = know.lookup p := by
  intro reveals
  induction reveals with
  | nil => intro players know p _; rfl
  | cons tid rest ih =>
      intro players know p habs
      simp only [applyReveals]
      cases hfind : players.find? (fun x => x.id == tid) with
      | none => exact ih players know p habs
      | some target =>
          rw [ih players _ p habs, lookup_assocSet]
          have hne : (p == target.id) = false := by
            rw [beq_eq_false_iff_ne]
            intro hcontra
            have htid : target.id = tid := by
              have := List.find?_some hfind
              rwa [beq_iff_eq] at this
            rw [hcontra, htid] at habs
            rw [habs] at hfind
            cases hfind
          rw [hne]
          simp

/-- Helper: the bumped key is among the tally keys. -/
theorem bump_mem_self :
    ∀ (counts : List (String × Nat)) (k : String),
      k ∈ (bump counts k).map Prod.fst := by
  intro counts k
  induction counts with
  | nil => exact List.mem_singleton.mpr rfl
  | cons e rest ih =>
      by_cases h : (e.1 == k) = true
      · have he : e.1 = k := by rwa [beq_iff_eq] at h
        simp only [bump, h, if_true, List.map_cons]
        rw [he]
        exact List.mem_cons_self k _
      · simp only [bump, h, Bool.false_eq_true, if_false, List.map_cons]
        exact List.mem_cons_of_mem e.1 ih

/-- Helper: bumping keeps every existing tally key. -/
theorem bump_mem_mono :
    ∀ (counts : List (String × Nat)) (k k' : String),
      k' ∈ counts.map Prod.fst → k' ∈ (bump counts k).map Prod.fst := by
  intro counts k
  induction counts with
  | nil => intro k' h; cases h
  | cons e rest ih =>
      intro k' h
      rcases List.mem_cons.mp h with h1 | h1
      · by_cases hb : (e.1 == k) = true
        · have he : e.1 = k := by rwa [beq_iff_eq] at hb
          simp only [bump, hb, if_true, List.map_cons]
          rw [h1, he]
          exact List.mem_cons_self k _
        · simp only [bump, hb, Bool.false_eq_true, if_false, List.map_cons]
          rw [h1]
          exact List.mem_cons_self e.1 _
      · by_cases hb : (e.1 == k) = true
        · simp only [bump, hb, if_true, List.map_cons]
          exact List.mem_cons_of_mem e.1 h1
        · simp only [bump, hb, Bool.false_eq_true, if_false, List.map_cons]
          exact List.mem_cons_of_mem e.1 (ih k' h1)

/-- Helper: a vote cast for k anywhere in the oracle batch leaves k among
the tally keys of the base fold. -/
theorem tallyFold_mem :
    ∀ (ba : List BotDayAction) (acc : List (String × Nat)) (k : String),
      ((∃ a ∈ ba, a.voteTargetId = some k) ∨ k ∈ acc.map Prod.fst) →
      k ∈ ((ba.foldl (fun counts a =>
        match a.voteTargetId with
        | some t => bump counts t
        | none => counts) acc).map Prod.fst) := by
  intro ba
  induction ba with
  | nil =>
      intro acc k h
      rcases h with ⟨a, ha, _⟩ | h2
      · cases ha
      · exact h2
  | cons a rest ih =>
      intro acc k h
      rw [List.foldl_cons]
      apply ih
      rcases h with ⟨b, hb, hbk⟩ | h2
      · rcases List.mem_cons.mp hb with rfl | hbrest
        · right
          rw [hbk]
          exact bump_mem_self acc k
        · exact Or.inl ⟨b, hbrest, hbk⟩
      · right
        cases hv : a.voteTargetId with
        | some t => exact bump_mem_mono acc t k h2
        | none => exact h2

/-- Claim C9 counterexample: the oracle proposes killing "d", a participant
who is not alive — an invalid oracle proposal per the claim — while the
alive werewolf user proposes killing the alive "v". The invalid proposal is
not dropped: it seizes the primary-kill slot (targets.werewolf = "d"), so
"v" survives the night, whereas the identical resolution without the
oracle proposal kills "v". The invalid oracle proposal therefore
contributes to the kill outcome, refuting the claim that it contributes
nothing, at this explicit concrete input. -/
theorem invalid_target_counterexample :
    (c9bState.players.find? (fun p => p.id == "d")).map Player.isAlive =
      some false ∧
    c9bOracle.werewolfKillTargetId = some "d" ∧
    (Option.map (fun s => s.targets.werewolf)
      (confirmNightAction c9bState c9bOracle ActionType.ROLE none
        (some "v"))) = some (some "d") ∧
    (Option.map (fun s => (processNightResults s).players.map aliveView)
      (confirmNightAction c9bState c9bOracle ActionType.ROLE none
        (some "v"))) =
      some [("u", true), ("v", true), ("d", false)] ∧
    (Option.map (fun s => (processNightResults s).players.map aliveView)
      (confirmNightAction c9bState emptyNightOracle ActionType.ROLE none
        (some "v"))) =
      some [("u", true), ("v", false), ("d", false)] := by
  refine ⟨?_, ?_, ?_, ?_, ?_⟩ <;> decide

/-- Helper: killing an id whose every carrier is already dead changes no
aliveness. -/
theorem killFirst_aliveView_dead :
    ∀ (ps : List Player) (k : String),
      (∀ p ∈ ps, p.id = k → p.isAlive = false) →
      (killFirst ps k).map aliveView = ps.map aliveView := by
  intro ps k
  induction ps with
  | nil => intro _; rfl
  | cons p rest ih =>
      intro h
      by_cases hid : (p.id == k) = true
      · have hpk : p.id = k := by rwa [beq_iff_eq] at hid
        have hdead : p.isAlive = false := h p (List.mem_cons_self p rest) hpk
        simp only [killFirst, hid, if_true, List.map_cons, List.cons.injEq]
        exact ⟨by simp [aliveView, hdead], trivial⟩
      · simp only [killFirst, hid, Bool.false_eq_true, if_false,
          List.map_cons, List.cons.injEq]
        exact ⟨trivial, ih (fun q hq hqk => h q (List.mem_cons_of_mem p hq) hqk)⟩

/-- Claim C9 as amended: an oracle proposal naming an id absent from the
roster causes no death and no knowledge-map entry, and resolution of the
remaining proposals always completes; an oracle kill proposal naming a
present but dead participant likewise changes no aliveness; but such
proposals are not dropped silently: an invalid oracle kill proposal still
occupies the primary-kill slot (suppressing all later kill proposals) and
an invalid oracle vote target still enters the day tally, so either can
change the round's outcome. -/
theorem invalid_target_amended :
    (∀ (st : GameState) (k : String), st.targets.werewolf = some k →
      (∀ p ∈ st.players, p.id ≠ k) →
      (processNightResults st).players = st.players) ∧
    (∀ (st : GameState) (ba : BotNightAction) (atype : ActionType)
      (rid tgt : Option String) (st' : GameState),
      confirmNightAction st ba atype rid tgt = some st' →
      ∀ p : String, st.players.find? (fun x => x.id == p) = none →
        st'.seerKnowledge.lookup p = st.seerKnowledge.lookup p) ∧
    (∀ (st : GameState) (ba : BotNightAction) (atype : ActionType)
      (rid tgt : Option String),
      (findUser st).isSome = true →
      (confirmNightAction st ba atype rid tgt).isSome = true) ∧
    (∀ (st : GameState) (ba : BotNightAction) (atype : ActionType)
      (rid tgt : Option String) (st' : GameState) (k : String),
      confirmNightAction st ba atype rid tgt = some st' →
      ¬ (tgt = none ∧ userIsAlive st = true) →
      ba.werewolfKillTargetId = some k →
      st'.targets.werewolf = some k) ∧
    (∀ (players : List Player) (userId : String)
      (ba : List BotDayAction) (tgt : Option String) (a : BotDayAction)
      (k : String), a ∈ ba → a.voteTargetId = some k →
      k ∈ (dayTally players userId ba tgt).map Prod.fst) ∧
    (∀ (st : GameState) (k : String), st.targets.werewolf = some k →
      (∀ p ∈ st.players, p.id = k → p.isAlive = false) →
      (processNightResults st).players.map aliveView =
        st.players.map aliveView) := by
  refine ⟨?_, ?_, ?_, ?_, ?_, ?_⟩
  · intro st k hww habs
    rw [processNightResults_players]
    unfold nightDeaths
    rw [hww]
    show (if (st.targets.doctor == some k) = true then st.players
      else killFirst st.players k) = st.players
    by_cases hd : (st.targets.doctor == some k) = true
    · rw [if_pos hd]
    · rw [if_neg hd]
      exact killFirst_absent st.players k habs
  · intro st ba atype rid tgt st' h p habs
    unfold confirmNightAction at h
    by_cases hg : (decide (tgt = none) && userIsAlive st) = true
    · rw [if_pos hg] at h
      simp only [Option.some.injEq] at h
      rw [← h]
    · rw [if_neg hg] at h
      cases hu : findUser st with
      | none => rw [hu] at h; cases h
      | some user =>
          rw [hu] at h
          simp only [Option.some.injEq] at h
          rw [← h]
          exact applyReveals_lookup_absent _ _ _ p habs
  · intro st ba atype rid tgt hsome
    unfold confirmNightAction
    by_cases hg : (decide (tgt = none) && userIsAlive st) = true
    · rw [if_pos hg]
      rfl
    · rw [if_neg hg]
      cases hu : findUser st with
      | none => rw [hu] at hsome; cases hsome
      | some user => rfl
  · intro st ba atype rid tgt st' k h hguard hk
    have hg : ¬ ((decide (tgt = none) && userIsAlive st) = true) := by
      simp only [Bool.and_eq_true, decide_eq_true_eq]
      intro hcontra
      exact hguard ⟨hcontra.1, hcontra.2⟩
    unfold confirmNightAction at h
    rw [if_neg hg] at h
    cases hu : findUser st with
    | none => rw [hu] at h; cases h
    | some user =>
        rw [hu] at h
        simp only [Option.some.injEq] at h
        rw [← h]
        show (nightKills ba user atype tgt).head? = some k
        unfold nightKills
        rw [hk]
        rfl
  · intro players userId ba tgt a k ha hk
    have hbase : k ∈ (tallyBase ba).map Prod.fst :=
      tallyFold_mem ba [] k (Or.inl ⟨a, ha, hk⟩)
    unfold dayTally
    cases hfind : players.find? (fun p => p.id == userId) with
    | none => exact hbase
    | some u =>
        show k ∈ List.map Prod.fst
          (if u.isAlive = true then
            match tgt with
            | some t => bump (tallyBase ba) t
            | none => tallyBase ba
          else tallyBase ba)
        cases hal : u.isAlive with
        | false =>
            simp only [Bool.false_eq_true, if_false]
            exact hbase
        | true =>
            rw [if_pos rfl]
            cases tgt with
            | none => exact hbase
            | some t => exact bump_mem_mono _ t k hbase
  · intro st k hww hdead
    rw [processNightResults_players]
    unfold nightDeaths
    rw [hww]
    show (if (st.targets.doctor == some k) = true then st.players
      else killFirst st.players k).map aliveView = st.players.map aliveView
    by_cases hd : (st.targets.doctor == some k) = true
    · rw [if_pos hd]
    · rw [if_neg hd]
      exact killFirst_aliveView_dead st.players k hdead

/-- Witness for the amended C9: a concrete absent-id kill target leaves the
concrete roster unchanged, a concrete absent-id reveal leaves the
knowledge map empty while resolution completes, and a concrete kill
proposal naming the dead "d" changes no aliveness. -/
theorem invalid_target_amended_witness :
    (processNightResults { c9State with
        targets := { werewolf := some "ghost", doctor := none,
                     seer := none } }).players =
      ({ c9State with
        targets := { werewolf := some "ghost", doctor := none,
                     seer := none } } : GameState).players ∧
    ((confirmNightAction c9State emptyNightOracle ActionType.ROLE none
        (some "ghost")).getD initialState).seerKnowledge.lookup "ghost" =
      c9State.seerKnowledge.lookup "ghost" ∧
    (confirmNightAction c9State emptyNightOracle ActionType.ROLE none
        (some "ghost")).isSome = true ∧
    (processNightResults { c9bState with
        targets := { werewolf := some "d", doctor := none,
                     seer := none } }).players.map aliveView =
      ({ c9bState with
        targets := { werewolf := some "d", doctor := none,
                     seer := none } } : GameState).players.map aliveView :=
  ⟨invalid_target_amended.1 _ "ghost" (by decide) (by decide),
   invalid_target_amended.2.1 c9State emptyNightOracle ActionType.ROLE none
      (some "ghost")
      ((confirmNightAction c9State emptyNightOracle ActionType.ROLE none
        (some "ghost")).getD initialState) (by decide) "ghost" (by decide),
   invalid_target_amended.2.2.1 c9State emptyNightOracle ActionType.ROLE none
      (some "ghost") (by decide),
   invalid_target_amended.2.2.2.2.2 _ "d" (by decide) (by decide)⟩
